import Mathlib

/-!
Verification of the dose-estimation, fallback-selection and sweep-orchestration
logic of a gamma-ray shielding parameter study.

The Python sources are embedded shallowly:
* `dose.py` — the NCRP-38/ANS flux-to-dose table, clamped linear interpolation
  (`get_flux_to_dose_factor`) and the analytic physics fallback
  (`estimate_physics_based_dose`).  Machine floats are modelled by `ℚ` where the
  code only does field arithmetic and comparisons, and the results of the
  transcendental functions (`exp`, `cos`, `atan`, `π`) live in `ℝ`.  Divisions
  that raise `ZeroDivisionError` in Python are modelled by `Option`.
* `simulation.py` — `run_simulation` as a function of an outcome oracle for the
  external transport engine, instrumented with the final working directory, the
  number of analytic-estimate invocations and the number of engine runs.
* `setup.py` — the resumable sweep over the parameter cross-product, with the
  result store as an insertion-ordered association list mirroring a Python dict.
-/

/-! ## dose.py: flux-to-dose conversion -/

/-- The NCRP-38/ANS-6.1.1-1977 table of `dose.py`: the parallel lists
`energies` and `factors`, zipped into `(energy MeV, factor)` pairs. -/
def doseTable : List (ℚ × ℚ) :=
  [(0.01, 3.96e-6), (0.03, 5.82e-7), (0.05, 2.90e-7), (0.07, 2.58e-7),
   (0.1, 2.83e-7), (0.15, 3.79e-7), (0.2, 5.01e-7), (0.25, 6.31e-7),
   (0.3, 7.59e-7), (0.35, 8.78e-7), (0.4, 9.85e-7), (0.45, 1.08e-6),
   (0.5, 1.17e-6), (0.55, 1.27e-6), (0.6, 1.36e-6), (0.65, 1.44e-6),
   (0.7, 1.52e-6), (0.8, 1.68e-6), (1.0, 1.98e-6), (1.4, 2.51e-6),
   (1.8, 2.99e-6), (2.2, 3.42e-6), (2.6, 3.82e-6), (2.8, 4.01e-6),
   (3.25, 4.41e-6), (3.75, 4.83e-6), (4.25, 5.23e-6), (4.75, 5.60e-6),
   (5.0, 5.80e-6), (5.25, 6.01e-6), (5.75, 6.37e-6), (6.25, 6.74e-6),
   (6.75, 7.11e-6), (7.5, 7.66e-6), (9.0, 8.77e-6), (11.0, 1.03e-5),
   (13.0, 1.18e-5), (15.0, 1.33e-5)]

/-- The `for i in range(len(energies)-1)` interpolation loop of
`get_flux_to_dose_factor`: scan consecutive pairs and return the linear
interpolation at the first bracketing interval, or `none` if no interval
brackets (the source then falls through to the nearest-neighbour return). -/
def interpLoop (e : ℚ) : List (ℚ × ℚ) → Option ℚ
  | p₁ :: p₂ :: rest =>
    if p₁.1 ≤ e ∧ e ≤ p₂.1 then
      some (p₁.2 + (e - p₁.1) / (p₂.1 - p₁.1) * (p₂.2 - p₁.2))
    else interpLoop e (p₂ :: rest)
  | _ => none

/-- The `factors[np.argmin(np.abs(np.array(energies) - energy))]` fall-through
return of `get_flux_to_dose_factor`: the factor of the first tabulated energy
of minimal absolute distance to `e`. -/
def argminAbsFactor (e : ℚ) : List (ℚ × ℚ) → ℚ
  | [] => 0
  | p :: ps => (ps.foldl (fun best q => if |q.1 - e| < |best.1 - e| then q else best) p).2

/-- `get_flux_to_dose_factor` from `dose.py`: clamp below the first tabulated
energy (`energies[0]`) and above the last (`energies[-1]`), linearly
interpolate in between, with the nearest-neighbour return as the loop
fall-through default. -/
def get_flux_to_dose_factor (energy : ℚ) : ℚ :=
  if energy ≤ doseTable.headI.1 then doseTable.headI.2
  else if (doseTable.getLast!).1 ≤ energy then (doseTable.getLast!).2
  else (interpLoop energy doseTable).getD (argminAbsFactor energy doseTable)

/-- `estimate_dose_from_flux` from `dose.py`. -/
def estimate_dose_from_flux (energy total_flux : ℚ) : ℚ :=
  total_flux * get_flux_to_dose_factor energy

/-! ## config.py: fixed configuration constants (test_mode = True) -/

/-- `ft_to_cm` from `config.py`. -/
def ft_to_cm : ℚ := 30.48

/-- `wall_thickness` from `config.py` (2 ft in cm). -/
def wall_thickness : ℚ := 2 * ft_to_cm

/-- `source_to_wall_distance` from `config.py` (6 ft in cm). -/
def source_to_wall_distance : ℚ := 6 * ft_to_cm

/-- `detector_diameter` from `config.py`. -/
def detector_diameter : ℚ := 30.0

/-- `gamma_energies` from `config.py` after the `test_mode = True` override. -/
def gamma_energies : List ℚ := [0.1, 1.0, 5.0]

/-- `channel_diameters` from `config.py` after the `test_mode = True` override. -/
def channel_diameters : List ℚ := [0.05, 0.5]

/-- `detector_distances` from `config.py` after the `test_mode = True` override. -/
def detector_distances : List ℚ := [30, 100]

/-- `detector_angles` from `config.py` after the `test_mode = True` override. -/
def detector_angles : List ℚ := [0, 15, 45]

/-! ## geometry.py: solid angle and detector position -/

/-- `calculate_solid_angle` from `geometry.py`:
`2π(1 − cos(atan(channel_radius / source_to_wall_distance)))`. -/
noncomputable def calculate_solid_angle (s_to_wall channel_radius : ℚ) : ℝ :=
  2 * Real.pi * (1 - Real.cos (Real.arctan ((channel_radius : ℝ) / (s_to_wall : ℝ))))

/-- The `detector_x` coordinate computed in `create_geometry` of `geometry.py`. -/
noncomputable def detector_x (detector_distance detector_angle : ℚ) : ℝ :=
  (source_to_wall_distance : ℝ) + (wall_thickness : ℝ) +
    (detector_distance : ℝ) * Real.cos ((detector_angle : ℝ) * Real.pi / 180)

/-- The `detector_y` coordinate computed in `create_geometry` of `geometry.py`. -/
noncomputable def detector_y (detector_distance detector_angle : ℚ) : ℝ :=
  (detector_distance : ℝ) * Real.sin ((detector_angle : ℝ) * Real.pi / 180)

/-! ## dose.py: analytic physics-based fallback model -/

/-- The energy-banded air attenuation coefficient of
`estimate_physics_based_dose`. -/
def atten_coeff (energy : ℚ) : ℚ :=
  if energy ≤ 0.1 then 0.01
  else if energy ≤ 0.5 then 0.005
  else if energy ≤ 1.0 then 0.003
  else 0.002

/-- The raw `estimated_flux` product of `estimate_physics_based_dose`:
`source_strength * solid_angle * attenuation * spreading * angle_effect *
detector_area` (before the `1e-5` floor). -/
noncomputable def estimated_flux_raw (energy channel_diameter detector_angle path_length : ℚ) : ℝ :=
  1e12 * calculate_solid_angle source_to_wall_distance (channel_diameter / 2)
    * Real.exp (-(atten_coeff energy : ℝ) * (path_length : ℝ))
    * (1 / (path_length : ℝ) ^ 2)
    * Real.cos (((min detector_angle 80 : ℚ) : ℝ) * Real.pi / 180)
    * (Real.pi * ((detector_diameter : ℝ) / 2) ^ 2)

/-- The floored `estimated_flux = max(estimated_flux, 1e-5)` of
`estimate_physics_based_dose`. -/
noncomputable def estimated_flux (energy channel_diameter detector_angle path_length : ℚ) : ℝ :=
  max (estimated_flux_raw energy channel_diameter detector_angle path_length) 1e-5

/-- `estimate_physics_based_dose` from `dose.py`.  The two Python divisions
whose denominators depend on the inputs (`1 / path_length**2` and
`/ (1 + detector_angle/10)`) raise `ZeroDivisionError` at denominator zero;
this is modelled by `none`. -/
noncomputable def estimate_physics_based_dose
    (energy channel_diameter detector_distance detector_angle path_length : ℚ) : Option ℝ :=
  if (path_length : ℚ) ^ 2 = 0 then none
  else if 1 + detector_angle / 10 = 0 then none
  else
    some (max (estimated_flux energy channel_diameter detector_angle path_length *
                 (get_flux_to_dose_factor energy : ℝ) * (energy : ℝ) ^ 2)
              (1e-7 * (energy : ℝ) * ((channel_diameter : ℝ) / 0.05) /
                 (1 + (detector_angle : ℝ) / 10)))

/-! ## simulation.py: one Monte Carlo run with fallback -/

/-- Classes of raised Python exceptions relevant to `run_simulation`:
`general` stands for any `Exception` subclass raised by a collaborator,
`interrupt` for a `BaseException` that `except Exception` does not catch
(`KeyboardInterrupt`), and `zeroDivision` for the `ZeroDivisionError` raised
inside `estimate_physics_based_dose`. -/
inductive PyExc
  | general
  | interrupt
  | zeroDivision
  deriving DecidableEq, Repr

/-- Whether `except Exception` catches this exception class. -/
def PyExc.isException : PyExc → Bool
  | .interrupt => false
  | _ => true

/-- The points of `run_simulation` at which a collaborator call can raise:
`build` is the construction code before the `try` block (materials, geometry,
source, tallies, settings, makedirs), `exportXml` the model export and file
moves at the start of the `try`, `engine` the `openmc.run()` call made inside
the run directory, `extract` the statepoint read-back, and `visualize` the
plotting calls after the results dict is assembled. -/
inductive RunPhase
  | build
  | exportXml
  | engine
  | extract
  | visualize
  deriving DecidableEq, Repr

/-- Outcome oracle for one `run_simulation` call: where (if anywhere) the
external collaborators raise, and the spectrum and mesh the statepoint
read-back would produce. -/
structure RunOracle where
  failAt : Option (RunPhase × PyExc)
  spectrum : List ℚ
  mesh : List (List ℚ)

/-- The per-run results dict of `run_simulation`.  `total_flux`, `spectrum`
and `mesh_result` are `Option`s because the exception path omits those keys;
`dose_rem_per_hr` is always present. -/
structure SimResult where
  energy : ℚ
  channel_diameter : ℚ
  detector_distance : ℚ
  detector_angle : ℚ
  detector_x : ℝ
  detector_y : ℝ
  total_flux : Option ℚ
  dose_rem_per_hr : ℝ
  spectrum : Option (List ℚ)
  mesh_result : Option (List (List ℚ))

/-- The configuration key `E{energy}_D{diameter}_dist{distance}_ang{angle}`
used both as `run_id` in `simulation.py` and as the result-store key in
`setup.py`. -/
def run_key (energy channel_diameter detector_distance detector_angle : ℚ) : String :=
  "E" ++ toString energy ++ "_D" ++ toString channel_diameter ++
    "_dist" ++ toString detector_distance ++ "_ang" ++ toString detector_angle

/-- The per-run working directory `results/run_{run_id}` of `simulation.py`. -/
def run_dir_name (energy channel_diameter detector_distance detector_angle : ℚ) : String :=
  "results/run_" ++ run_key energy channel_diameter detector_distance detector_angle

/-- The fallback path length `source_to_wall_distance + wall_thickness +
detector_distance` used by both fallback sites of `run_simulation`. -/
def fallback_path_length (detector_distance : ℚ) : ℚ :=
  source_to_wall_distance + wall_thickness + detector_distance

/-- The analytic fallback estimate as invoked by `run_simulation`. -/
noncomputable def fallback_dose (energy channel_diameter detector_distance detector_angle : ℚ) :
    Option ℝ :=
  estimate_physics_based_dose energy channel_diameter detector_distance detector_angle
    (fallback_path_length detector_distance)

/-- Observable outcome of one `run_simulation` call: the returned dict or the
propagated exception, the process working directory on exit, and
instrumentation counting calls to `estimate_physics_based_dose` and to the
transport engine. -/
structure RunOutput where
  result : Except PyExc SimResult
  finalDir : String
  estimateCalls : ℕ
  engineRuns : ℕ

/-- The minimal results dict of the `except Exception` handler: the four
configuration fields, the detector position, and the fallback dose only. -/
noncomputable def minimal_result (e d dist ang : ℚ) (v : ℝ) : SimResult where
  energy := e
  channel_diameter := d
  detector_distance := dist
  detector_angle := ang
  detector_x := detector_x dist ang
  detector_y := detector_y dist ang
  total_flux := none
  dose_rem_per_hr := v
  spectrum := none
  mesh_result := none

/-- The full results dict of the success path of `run_simulation`. -/
noncomputable def full_result (e d dist ang : ℚ) (sp : List ℚ) (mesh : List (List ℚ))
    (v : ℝ) : SimResult where
  energy := e
  channel_diameter := d
  detector_distance := dist
  detector_angle := ang
  detector_x := detector_x dist ang
  detector_y := detector_y dist ang
  total_flux := some sp.sum
  dose_rem_per_hr := v
  spectrum := some sp
  mesh_result := some mesh

/-- The `except Exception` handler of `run_simulation`: restore the original
working directory, compute the analytic fallback estimate, and return the
minimal results dict (configuration fields, detector position and fallback
dose only).  If the estimate itself divides by zero the `ZeroDivisionError`
propagates. -/
noncomputable def except_handler (energy channel_diameter detector_distance detector_angle : ℚ)
    (origDir : String) (priorEstimates engineRuns : ℕ) : RunOutput :=
  match fallback_dose energy channel_diameter detector_distance detector_angle with
  | none => ⟨.error .zeroDivision, origDir, priorEstimates + 1, engineRuns⟩
  | some est =>
      ⟨.ok (minimal_result energy channel_diameter detector_distance detector_angle est),
        origDir, priorEstimates + 1, engineRuns⟩

/-- The statepoint post-processing of `run_simulation` (lines after
`openmc.run()` returned and the working directory was restored): sum the
spectrum, convert flux to dose, silently fall back to the analytic model when
`total_flux < 1e-6 or dose_rem_per_hr < 1e-10`, assemble the full results
dict, then run the visualization calls (whose failure is caught by the same
`except Exception` handler). -/
noncomputable def post_extract (energy channel_diameter detector_distance detector_angle : ℚ)
    (spectrum : List ℚ) (mesh : List (List ℚ)) (origDir : String) (vizFail : Option PyExc) :
    RunOutput :=
  let total_flux := spectrum.sum
  let dose := total_flux * get_flux_to_dose_factor energy
  if total_flux < 1e-6 ∨ dose < 1e-10 then
    match fallback_dose energy channel_diameter detector_distance detector_angle with
    | none => ⟨.error .zeroDivision, origDir, 2, 1⟩
    | some est =>
        let r : SimResult :=
          full_result energy channel_diameter detector_distance detector_angle spectrum mesh est
        match vizFail with
        | none => ⟨.ok r, origDir, 1, 1⟩
        | some c =>
            if c.isException then
              except_handler energy channel_diameter detector_distance detector_angle origDir 1 1
            else ⟨.error c, origDir, 1, 1⟩
  else
    let r : SimResult :=
      full_result energy channel_diameter detector_distance detector_angle spectrum mesh
        ((dose : ℚ) : ℝ)
    match vizFail with
    | none => ⟨.ok r, origDir, 0, 1⟩
    | some c =>
        if c.isException then
          except_handler energy channel_diameter detector_distance detector_angle origDir 0 1
        else ⟨.error c, origDir, 0, 1⟩

/-- `run_simulation` from `simulation.py` as a function of the outcome oracle
and the working directory the process starts in.  The construction code before
the `try` block is unprotected, so a `build` failure propagates; inside the
`try`, `except Exception` routes every non-interrupt failure through the
fallback handler; the working directory is changed to the run directory only
around the engine call, and `except Exception` (not a `finally`) is what
restores it on failure. -/
noncomputable def run_simulation (energy channel_diameter detector_distance detector_angle : ℚ)
    (oracle : RunOracle) (cwd₀ : String) : RunOutput :=
  match oracle.failAt with
  | some (.build, c) => ⟨.error c, cwd₀, 0, 0⟩
  | some (.exportXml, c) =>
      if c.isException then
        except_handler energy channel_diameter detector_distance detector_angle cwd₀ 0 0
      else ⟨.error c, cwd₀, 0, 0⟩
  | some (.engine, c) =>
      if c.isException then
        except_handler energy channel_diameter detector_distance detector_angle cwd₀ 0 1
      else ⟨.error c, run_dir_name energy channel_diameter detector_distance detector_angle, 0, 1⟩
  | some (.extract, c) =>
      if c.isException then
        except_handler energy channel_diameter detector_distance detector_angle cwd₀ 0 1
      else ⟨.error c, cwd₀, 0, 1⟩
  | some (.visualize, c) =>
      post_extract energy channel_diameter detector_distance detector_angle
        oracle.spectrum oracle.mesh cwd₀ (some c)
  | none =>
      post_extract energy channel_diameter detector_distance detector_angle
        oracle.spectrum oracle.mesh cwd₀ none

/-! ## setup.py: resumable sweep over the parameter cross-product -/

/-- One value of the persisted result store.  A loaded JSON entry need not
contain a `dose_rem_per_hr` key, hence the `Option`; entries written by the
sweep itself always carry the full results dict. -/
structure StoreEntry where
  dose_rem_per_hr : Option ℝ
  payload : Option SimResult

/-- The store entry written for a completed `run_simulation` result. -/
def StoreEntry.ofResult (r : SimResult) : StoreEntry :=
  ⟨some r.dose_rem_per_hr, some r⟩

/-- The result store `all_results`: an insertion-ordered association list
mirroring the Python dict keyed by configuration key. -/
abbrev Store := List (String × StoreEntry)

/-- Dict lookup. -/
def storeLookup : Store → String → Option StoreEntry
  | [], _ => none
  | p :: ps, k => if p.1 = k then some p.2 else storeLookup ps k

/-- Dict assignment `all_results[key] = result`: overwrite in place if the key
exists (Python dicts keep the original insertion position), append otherwise. -/
def storeInsert : Store → String → StoreEntry → Store
  | [], k, v => [(k, v)]
  | p :: ps, k, v => if p.1 = k then (k, v) :: ps else p :: storeInsert ps k v

/-- The resume test `key in all_results and 'dose_rem_per_hr' in
all_results[key]` of `setup.py`. -/
def hasDose (s : Store) (k : String) : Bool :=
  match storeLookup s k with
  | some en => en.dose_rem_per_hr.isSome
  | none => false

/-- One point of the parameter sweep:
`(energy, channel_diameter, detector_distance, detector_angle)`. -/
abbrev SweepConfig := ℚ × ℚ × ℚ × ℚ

/-- The key of a sweep configuration. -/
def config_key (c : SweepConfig) : String :=
  run_key c.1 c.2.1 c.2.2.1 c.2.2.2

/-- The full cross-product of the sweep, energy outermost and angle innermost,
exactly as the nested `for` loops of `setup.py` enumerate it. -/
def sweep_configs (es ds dists angs : List ℚ) : List SweepConfig :=
  es.flatMap fun e =>
    ds.flatMap fun d => dists.flatMap fun dist => angs.map fun a => (e, d, dist, a)

/-- State of the sweep loop in `main` of `setup.py`: the accumulated result
store, the success and failure counters, the keys actually handed to
`run_simulation` (instrumentation for the resume property), whether a
`KeyboardInterrupt` terminated the sweep, and the process working directory. -/
structure SweepState where
  store : Store
  completed : ℕ
  failed : ℕ
  runKeys : List String
  interrupted : Bool
  cwd : String

/-- One iteration of the innermost sweep loop of `setup.py`: skip (counting it
completed) when the key is already present with a `dose_rem_per_hr`, otherwise
run the simulation; a returned dict is stored, a caught exception is counted
as a failure, and a `KeyboardInterrupt` persists the store and exits. -/
noncomputable def sweep_step (oracle : String → RunOracle) (st : SweepState) (c : SweepConfig) :
    SweepState :=
  if st.interrupted then st
  else
    let k := config_key c
    if hasDose st.store k then { st with completed := st.completed + 1 }
    else
      let out := run_simulation c.1 c.2.1 c.2.2.1 c.2.2.2 (oracle k) st.cwd
      match out.result with
      | .ok r =>
          { st with store := storeInsert st.store k (StoreEntry.ofResult r),
                    completed := st.completed + 1,
                    runKeys := st.runKeys ++ [k], cwd := out.finalDir }
      | .error .interrupt =>
          { st with interrupted := true, runKeys := st.runKeys ++ [k], cwd := out.finalDir }
      | .error _ =>
          { st with failed := st.failed + 1,
                    runKeys := st.runKeys ++ [k], cwd := out.finalDir }

/-- The whole sweep loop. -/
noncomputable def sweep (oracle : String → RunOracle) (configs : List SweepConfig)
    (st : SweepState) : SweepState :=
  configs.foldl (sweep_step oracle) st

/-- All states the sweep loop passes through, the initial one included. -/
noncomputable def sweep_states (oracle : String → RunOracle) (configs : List SweepConfig)
    (st : SweepState) : List SweepState :=
  configs.scanl (sweep_step oracle) st

/-- The sweep state `main` of `setup.py` starts from: the loaded store, zero
counters, not interrupted. -/
def initState (s : Store) (cwd : String) : SweepState :=
  ⟨s, 0, 0, [], false, cwd⟩

/-- `main` of `setup.py` restricted to its sweep phase: fold the sweep over
the full parameter cross-product starting from the loaded store. -/
noncomputable def main_sweep (oracle : String → RunOracle) (es ds dists angs : List ℚ)
    (s₀ : Store) (cwd : String) : SweepState :=
  sweep oracle (sweep_configs es ds dists angs) (initState s₀ cwd)

/-- The store invariant of the spec: every entry present carries a
`dose_rem_per_hr` that is non-negative (and, being a real number, finite). -/
def storeInv (s : Store) : Prop :=
  ∀ p ∈ s, ∃ d, p.2.dose_rem_per_hr = some d ∧ 0 ≤ d

/-! ## Helper lemmas about the interpolation loop -/

/-- If the scan starts at a pair whose energy is at most `e`, `e` is at most
the last energy, and there are at least two pairs, the loop finds a bracketing
interval. -/
lemma interpLoop_isSome (e : ℚ) :
    ∀ (l : List (ℚ × ℚ)) (p y : ℚ × ℚ), l ≠ [] → p.1 ≤ e →
      (p :: l).getLast? = some y → e ≤ y.1 →
      (interpLoop e (p :: l)).isSome := by
  intro l
  induction l with
  | nil => intro p y hne _ _ _; exact absurd rfl hne
  | cons q l' ih =>
    intro p y _ hpe hlast hey
    by_cases hq : e ≤ q.1
    · simp [interpLoop, hpe, hq]
    · have hqe : q.1 ≤ e := le_of_not_le hq
      have : (interpLoop e (q :: l')).isSome := by
        cases l' with
        | nil =>
          have hy : q = y := by simpa using hlast
          rw [← hy] at hey
          exact absurd hey hq
        | cons r l'' =>
          exact ih q y (by simp) hqe (by simpa using hlast) hey
      simpa [interpLoop, hpe, hq] using this

/-- There is a bracketing index whenever the first energy is at most `e` and
`e` is at most the last energy. -/
lemma exists_bracket (e : ℚ) :
    ∀ (l : List (ℚ × ℚ)) (p y : ℚ × ℚ), l ≠ [] → p.1 ≤ e →
      (p :: l).getLast? = some y → e ≤ y.1 →
      ∃ i, i + 1 < (p :: l).length ∧ ((p :: l).getD i (0, 0)).1 ≤ e ∧
        e ≤ ((p :: l).getD (i + 1) (0, 0)).1 := by
  intro l
  induction l with
  | nil => intro p y hne _ _ _; exact absurd rfl hne
  | cons q l' ih =>
    intro p y _ hpe hlast hey
    by_cases hq : e ≤ q.1
    · exact ⟨0, by simp, by simpa using hpe, by simpa using hq⟩
    · have hqe : q.1 ≤ e := le_of_not_le hq
      cases l' with
      | nil =>
        have hy : q = y := by simpa using hlast
        rw [← hy] at hey
        exact absurd hey hq
      | cons r l'' =>
        obtain ⟨i, hi, h₁, h₂⟩ := ih q y (by simp) hqe (by simpa using hlast) hey
        exact ⟨i + 1, by simpa using hi, by simpa using h₁, by simpa using h₂⟩

/-- The loop returns the linear interpolation at interval `i` provided all
earlier interval upper endpoints are strictly below `e` and interval `i`
brackets `e`. -/
lemma interpLoop_bracket (e : ℚ) :
    ∀ (i : ℕ) (l : List (ℚ × ℚ)), i + 1 < l.length →
      (∀ j, j < i → ((l.getD (j + 1) (0, 0)).1 < e)) →
      (l.getD i (0, 0)).1 ≤ e → e ≤ (l.getD (i + 1) (0, 0)).1 →
      interpLoop e l = some ((l.getD i (0, 0)).2 +
        (e - (l.getD i (0, 0)).1) /
          ((l.getD (i + 1) (0, 0)).1 - (l.getD i (0, 0)).1) *
        ((l.getD (i + 1) (0, 0)).2 - (l.getD i (0, 0)).2)) := by
  intro i
  induction i with
  | zero =>
    intro l hlen _ h₁ h₂
    match l, hlen with
    | p :: q :: rest, _ =>
      simp only [List.getD_cons_zero, List.getD_cons_succ] at h₁ h₂ ⊢
      simp [interpLoop, h₁, h₂]
  | succ i ih =>
    intro l hlen hprev h₁ h₂
    match l, hlen with
    | p :: q :: rest, hlen =>
      have hq : q.1 < e := by simpa using hprev 0 (Nat.succ_pos i)
      have tail := ih (q :: rest) (by simpa using hlen)
        (fun j hj => by simpa using hprev (j + 1) (by omega))
        (by simpa using h₁) (by simpa using h₂)
      simp only [List.getD_cons_succ]
      rw [interpLoop, if_neg (by rintro ⟨-, h⟩; exact absurd h (not_le.mpr hq))]
      exact tail

/-- Any value the loop returns over a table of positive factors is positive. -/
lemma interpLoop_pos (e : ℚ) :
    ∀ (l : List (ℚ × ℚ)), (∀ p ∈ l, 0 < p.2) → ∀ r, interpLoop e l = some r → 0 < r := by
  intro l
  induction l with
  | nil => intro _ r h; simp [interpLoop] at h
  | cons p l' ih =>
    intro hpos r h
    cases l' with
    | nil => simp [interpLoop] at h
    | cons q l'' =>
      rw [interpLoop] at h
      split at h
      · rename_i hb
        obtain ⟨h₁, h₂⟩ := hb
        have hp : 0 < p.2 := hpos p (by simp)
        have hq : 0 < q.2 := hpos q (by simp)
        rw [Option.some_inj] at h
        subst h
        rcases eq_or_lt_of_le (le_trans h₁ h₂ : p.1 ≤ q.1) with heq | hlt
        · simpa [← heq] using hp
        · set t : ℚ := (e - p.1) / (q.1 - p.1) with ht
          have ht0 : 0 ≤ t := div_nonneg (by linarith) (by linarith)
          have ht1 : t ≤ 1 := by
            rw [ht, div_le_one (by linarith)]; linarith
          have : p.2 + t * (q.2 - p.2) = (1 - t) * p.2 + t * q.2 := by ring
          rw [this]
          rcases le_or_lt p.2 q.2 with hle | hlt'
          · nlinarith
          · nlinarith
      · exact ih (fun x hx => hpos x (by simp [hx])) r h

/-! ## Facts about the concrete dose table -/

/-- The tabulated energies are strictly increasing. -/
lemma doseTable_chain : List.Chain' (fun p q : ℚ × ℚ => p.1 < q.1) doseTable := by
  simp only [doseTable, List.chain'_cons, List.chain'_singleton, and_true]
  norm_num

/-- Strict monotonicity of the tabulated energies in index form. -/
lemma doseTable_mono {i j : ℕ} (hij : i < j) (hj : j < doseTable.length) :
    (doseTable.getD i (0, 0)).1 < (doseTable.getD j (0, 0)).1 := by
  haveI : IsTrans (ℚ × ℚ) (fun p q : ℚ × ℚ => p.1 < q.1) :=
    ⟨fun _ _ _ => lt_trans⟩
  have hp : List.Pairwise (fun p q : ℚ × ℚ => p.1 < q.1) doseTable :=
    List.chain'_iff_pairwise.mp doseTable_chain
  have hi : i < doseTable.length := lt_trans hij hj
  rw [List.getD_eq_getElem _ _ hi, List.getD_eq_getElem _ _ hj]
  exact List.pairwise_iff_getElem.mp hp i j hi hj hij

/-- All tabulated factors are positive. -/
lemma doseTable_factors_pos : ∀ p ∈ doseTable, (0 : ℚ) < p.2 := by
  simp only [doseTable, List.mem_cons, List.not_mem_nil, or_false]
  rintro p (rfl | rfl | rfl | rfl | rfl | rfl | rfl | rfl | rfl | rfl | rfl | rfl | rfl | rfl |
    rfl | rfl | rfl | rfl | rfl | rfl | rfl | rfl | rfl | rfl | rfl | rfl | rfl | rfl | rfl |
    rfl | rfl | rfl | rfl | rfl | rfl | rfl | rfl | rfl) <;> norm_num

/-- The table has 38 entries. -/
lemma doseTable_length : doseTable.length = 38 := by simp [doseTable]

/-- The first tabulated energy. -/
lemma doseTable_head_fst : doseTable.headI.1 = 0.01 := rfl

/-- The first tabulated factor. -/
lemma doseTable_head_snd : doseTable.headI.2 = 3.96e-6 := rfl

/-- The last tabulated pair, via `getLast?`. -/
lemma doseTable_getLast? : doseTable.getLast? = some ((15.0 : ℚ), (1.33e-5 : ℚ)) := rfl

/-- The last tabulated pair, via `getLast!`. -/
lemma doseTable_getLast : doseTable.getLast! = ((15.0 : ℚ), (1.33e-5 : ℚ)) := by
  simp [doseTable, List.getLast!, List.getLast]

/-- The pair at the final index 37. -/
lemma doseTable_getD_last : doseTable.getD 37 (0, 0) = ((15.0 : ℚ), (1.33e-5 : ℚ)) := rfl

/-- Unfolded form of `get_flux_to_dose_factor` with the concrete clamp
constants. -/
lemma factor_eq (e : ℚ) :
    get_flux_to_dose_factor e =
      if e ≤ 0.01 then 3.96e-6
      else if 15 ≤ e then 1.33e-5
      else (interpLoop e doseTable).getD (argminAbsFactor e doseTable) := by
  rw [get_flux_to_dose_factor, doseTable_head_fst, doseTable_head_snd, doseTable_getLast,
    show (((15.0 : ℚ), (1.33e-5 : ℚ))).1 = 15 from by norm_num]

/-- Clamp below the table. -/
lemma factor_clamp_low {e : ℚ} (h : e ≤ 0.01) : get_flux_to_dose_factor e = 3.96e-6 := by
  rw [factor_eq, if_pos h]

/-- Clamp above the table. -/
lemma factor_clamp_high {e : ℚ} (h : 15 ≤ e) : get_flux_to_dose_factor e = 1.33e-5 := by
  rw [factor_eq, if_neg (by push_neg; linarith [show (0.01 : ℚ) < 15 from by norm_num]),
    if_pos h]

/-- The loop over the concrete table finds an interval for every energy
inside the clamp range. -/
lemma interpLoop_isSome_table (e : ℚ) (h₁ : (0.01 : ℚ) ≤ e) (h₂ : e ≤ 15) :
    (interpLoop e doseTable).isSome :=
  interpLoop_isSome e doseTable.tail ((0.01 : ℚ), (3.96e-6 : ℚ)) ((15.0 : ℚ), (1.33e-5 : ℚ))
    (by simp [doseTable]) h₁ doseTable_getLast? (le_trans h₂ (by norm_num))

/-- Bracketing-interval existence over the concrete table. -/
lemma exists_bracket_table (e : ℚ) (h₁ : (0.01 : ℚ) ≤ e) (h₂ : e ≤ 15) :
    ∃ i, i + 1 < doseTable.length ∧ (doseTable.getD i (0, 0)).1 ≤ e ∧
      e ≤ (doseTable.getD (i + 1) (0, 0)).1 :=
  exists_bracket e doseTable.tail ((0.01 : ℚ), (3.96e-6 : ℚ)) ((15.0 : ℚ), (1.33e-5 : ℚ))
    (by simp [doseTable]) h₁ doseTable_getLast? (le_trans h₂ (by norm_num))

/-- The conversion factor is strictly positive at every energy. -/
lemma get_flux_to_dose_factor_pos (e : ℚ) : 0 < get_flux_to_dose_factor e := by
  rw [factor_eq]
  split
  · norm_num
  · split
    · norm_num
    · rename_i h₁ h₂
      push_neg at h₁ h₂
      obtain ⟨r, hr⟩ := Option.isSome_iff_exists.mp
        (interpLoop_isSome_table e h₁.le h₂.le)
      rw [hr, Option.getD_some]
      exact interpLoop_pos e doseTable doseTable_factors_pos r hr

/-- Interpolation formula for energies strictly inside interval `i`. -/
lemma factor_interp (e : ℚ) (i : ℕ) (hi : i + 1 < 38)
    (h₁ : (doseTable.getD i (0, 0)).1 < e) (h₂ : e < (doseTable.getD (i + 1) (0, 0)).1) :
    get_flux_to_dose_factor e =
      (doseTable.getD i (0, 0)).2 +
        (e - (doseTable.getD i (0, 0)).1) /
          ((doseTable.getD (i + 1) (0, 0)).1 - (doseTable.getD i (0, 0)).1) *
        ((doseTable.getD (i + 1) (0, 0)).2 - (doseTable.getD i (0, 0)).2) := by
  have low : (0.01 : ℚ) ≤ (doseTable.getD i (0, 0)).1 := by
    rcases Nat.eq_zero_or_pos i with rfl | hpos
    · exact le_of_eq rfl
    · exact le_of_lt (doseTable_mono hpos (by rw [doseTable_length]; omega))
  have high : (doseTable.getD (i + 1) (0, 0)).1 ≤ 15 := by
    rcases eq_or_lt_of_le (show i + 1 ≤ 37 by omega) with heq | hlt
    · rw [heq, doseTable_getD_last]; norm_num
    · have h := doseTable_mono hlt (by rw [doseTable_length]; omega)
      rw [doseTable_getD_last] at h
      exact le_of_lt (lt_of_lt_of_le h (by norm_num))
  have prev : ∀ j, j < i → (doseTable.getD (j + 1) (0, 0)).1 < e := by
    intro j hj
    rcases Nat.lt_or_ge (j + 1) i with hlt | hge
    · exact lt_trans (doseTable_mono hlt (by rw [doseTable_length]; omega)) h₁
    · have hji : j + 1 = i := by omega
      rw [hji]; exact h₁
  rw [factor_eq, if_neg (by push_neg; linarith), if_neg (by push_neg; linarith),
    interpLoop_bracket e i doseTable (by rw [doseTable_length]; omega) prev h₁.le h₂.le,
    Option.getD_some]

/-- At a tabulated energy the conversion factor is the tabulated factor. -/
lemma factor_at_table (i : ℕ) (hi : i < 38) :
    get_flux_to_dose_factor (doseTable.getD i (0, 0)).1 = (doseTable.getD i (0, 0)).2 := by
  rcases Nat.eq_zero_or_pos i with rfl | hpos
  · exact factor_clamp_low (le_of_eq rfl)
  obtain ⟨j, rfl⟩ : ∃ j, i = j + 1 := ⟨i - 1, (Nat.succ_pred_eq_of_pos hpos).symm⟩
  rcases eq_or_lt_of_le (show j + 1 ≤ 37 by omega) with heq | hlt
  · rw [heq, doseTable_getD_last]
    exact factor_clamp_high (by norm_num)
  have hmono : (doseTable.getD j (0, 0)).1 < (doseTable.getD (j + 1) (0, 0)).1 :=
    doseTable_mono (Nat.lt_succ_self j) (by rw [doseTable_length]; omega)
  have low : (0.01 : ℚ) ≤ (doseTable.getD j (0, 0)).1 := by
    rcases Nat.eq_zero_or_pos j with rfl | hj
    · exact le_of_eq rfl
    · exact le_of_lt (doseTable_mono hj (by rw [doseTable_length]; omega))
  have high : (doseTable.getD (j + 1) (0, 0)).1 < 15 := by
    have h := doseTable_mono hlt (by rw [doseTable_length]; omega)
    rw [doseTable_getD_last] at h
    exact lt_of_lt_of_le h (by norm_num)
  have prev : ∀ k, k < j → (doseTable.getD (k + 1) (0, 0)).1 <
      (doseTable.getD (j + 1) (0, 0)).1 := by
    intro k hk
    exact doseTable_mono (by omega) (by rw [doseTable_length]; omega)
  rw [factor_eq, if_neg (by push_neg; linarith), if_neg (by push_neg; linarith),
    interpLoop_bracket _ j doseTable (by rw [doseTable_length]; omega) prev hmono.le le_rfl,
    Option.getD_some, div_self (ne_of_gt (sub_pos.mpr hmono))]
  ring

/-- C1: `get_flux_to_dose_factor` clamps to the first tabulated factor at or
below 0.01 MeV and to the last at or above 15 MeV, reproduces every tabulated
factor exactly at its tabulated energy, linearly interpolates between adjacent
tabulated points, and in particular returns `1.17e-6` at 0.5 MeV and
`3.96e-6 + 0.5*(5.82e-7 - 3.96e-6)` at 0.02 MeV. -/
theorem C1_flux_to_dose_factor_spec (e : ℚ) :
    (e ≤ 0.01 → get_flux_to_dose_factor e = 3.96e-6) ∧
    (15 ≤ e → get_flux_to_dose_factor e = 1.33e-5) ∧
    (∀ i : ℕ, i < 38 →
      get_flux_to_dose_factor (doseTable.getD i (0, 0)).1 = (doseTable.getD i (0, 0)).2) ∧
    (∀ i : ℕ, i + 1 < 38 →
      (doseTable.getD i (0, 0)).1 < e → e < (doseTable.getD (i + 1) (0, 0)).1 →
      get_flux_to_dose_factor e =
        (doseTable.getD i (0, 0)).2 +
          (e - (doseTable.getD i (0, 0)).1) /
            ((doseTable.getD (i + 1) (0, 0)).1 - (doseTable.getD i (0, 0)).1) *
          ((doseTable.getD (i + 1) (0, 0)).2 - (doseTable.getD i (0, 0)).2)) ∧
    get_flux_to_dose_factor 0.5 = 1.17e-6 ∧
    get_flux_to_dose_factor 0.02 = 3.96e-6 + 0.5 * (5.82e-7 - 3.96e-6) := by
  refine ⟨fun h => factor_clamp_low h, fun h => factor_clamp_high h,
    fun i hi => factor_at_table i hi,
    fun i hi h₁ h₂ => factor_interp e i hi h₁ h₂, ?_, ?_⟩
  · exact factor_at_table 12 (by norm_num)
  · have h := factor_interp 0.02 0 (by norm_num)
      (by show (0.01 : ℚ) < 0.02; norm_num) (by show (0.02 : ℚ) < 0.03; norm_num)
    rw [h]
    show (3.96e-6 : ℚ) + (0.02 - 0.01) / (0.03 - 0.01) * (5.82e-7 - 3.96e-6) = _
    norm_num

/-- Witness for C1: the interpolation clause evaluated at 0.02 MeV in the
first table interval. -/
theorem C1_witness :
    get_flux_to_dose_factor 0.02 =
      (doseTable.getD 0 (0, 0)).2 +
        (0.02 - (doseTable.getD 0 (0, 0)).1) /
          ((doseTable.getD 1 (0, 0)).1 - (doseTable.getD 0 (0, 0)).1) *
        ((doseTable.getD 1 (0, 0)).2 - (doseTable.getD 0 (0, 0)).2) :=
  (C1_flux_to_dose_factor_spec 0.02).2.2.2.1 0 (by norm_num)
    (by show (0.01 : ℚ) < 0.02; norm_num) (by show (0.02 : ℚ) < 0.03; norm_num)

/-- C10: for every energy strictly between the lowest and the highest
tabulated energies the interpolation loop finds a bracketing interval
`energies[i] ≤ e ≤ energies[i+1]` and returns from inside the loop, so the
final nearest-neighbour fallback return of `get_flux_to_dose_factor` is
unreachable. -/
theorem C10_nearest_fallback_unreachable (e : ℚ) (h₁ : (0.01 : ℚ) < e) (h₂ : e < 15) :
    (interpLoop e doseTable).isSome ∧
    ∃ i, i + 1 < doseTable.length ∧ (doseTable.getD i (0, 0)).1 ≤ e ∧
      e ≤ (doseTable.getD (i + 1) (0, 0)).1 :=
  ⟨interpLoop_isSome_table e h₁.le h₂.le, exists_bracket_table e h₁.le h₂.le⟩

/-- Witness for C10 at 1 MeV. -/
theorem C10_witness :
    (interpLoop 1 doseTable).isSome ∧
    ∃ i, i + 1 < doseTable.length ∧ (doseTable.getD i (0, 0)).1 ≤ 1 ∧
      (1 : ℚ) ≤ (doseTable.getD (i + 1) (0, 0)).1 :=
  C10_nearest_fallback_unreachable 1 (by norm_num) (by norm_num)

/-! ## Lemmas about the analytic fallback model -/

/-- The attenuation coefficient is positive in every energy band. -/
lemma atten_coeff_pos (e : ℚ) : 0 < atten_coeff e := by
  rw [atten_coeff]
  split
  · norm_num
  · split
    · norm_num
    · split
      · norm_num
      · norm_num

/-- The floored flux never drops below the `1e-5` floor. -/
lemma estimated_flux_ge (e d a L : ℚ) : (1e-5 : ℝ) ≤ estimated_flux e d a L :=
  le_max_right _ _

/-- Rearranged form of the raw flux product isolating the path-length
dependent factors. -/
lemma estimated_flux_raw_repr (e d a : ℚ) (M : ℚ) :
    estimated_flux_raw e d a M =
      (1e12 * calculate_solid_angle source_to_wall_distance (d / 2) *
        Real.cos (((min a 80 : ℚ) : ℝ) * Real.pi / 180) *
        (Real.pi * ((detector_diameter : ℝ) / 2) ^ 2)) *
      (Real.exp (-(atten_coeff e : ℝ) * (M : ℝ)) * (1 / (M : ℝ) ^ 2)) := by
  rw [estimated_flux_raw]; ring

/-- C4 (amended): for non-negative finite inputs with strictly positive
energy, nonzero path length and non-negative angle,
`estimate_physics_based_dose` raises no error and returns a strictly positive
(finite, being a real number) dose. -/
theorem C4_estimate_positive
    (energy channel_diameter detector_distance detector_angle path_length : ℚ)
    (he : 0 < energy) (hL : path_length ≠ 0) (hang : 0 ≤ detector_angle) :
    ∃ v, estimate_physics_based_dose energy channel_diameter detector_distance
      detector_angle path_length = some v ∧ 0 < v := by
  rw [estimate_physics_based_dose,
    if_neg (by simpa using pow_ne_zero 2 hL),
    if_neg (by positivity)]
  refine ⟨_, rfl, ?_⟩
  have hflux : (0 : ℝ) < estimated_flux energy channel_diameter detector_angle path_length :=
    lt_of_lt_of_le (by norm_num) (estimated_flux_ge _ _ _ _)
  have hfac : (0 : ℝ) < ((get_flux_to_dose_factor energy : ℚ) : ℝ) := by
    exact_mod_cast get_flux_to_dose_factor_pos energy
  have hesq : (0 : ℝ) < (energy : ℝ) ^ 2 := by
    have : (0 : ℝ) < (energy : ℝ) := by exact_mod_cast he
    positivity
  exact lt_max_of_lt_left (by positivity)

/-- Witness for C4 at energy 1, diameter 1, distance 1, angle 0, path 1. -/
theorem C4_witness :
    ∃ v, estimate_physics_based_dose 1 1 1 0 1 = some v ∧ 0 < v :=
  C4_estimate_positive 1 1 1 0 1 (by norm_num) (by norm_num) (by norm_num)

/-- Counterexample to C4 as stated: energy 0 is a non-negative finite input,
yet the returned dose is exactly 0, not strictly positive (the `energy**2`
scaling and the `min_dose` floor both vanish at zero energy). -/
theorem C4_counterexample : estimate_physics_based_dose 0 1 30 0 1 = some 0 := by
  rw [estimate_physics_based_dose, if_neg (by norm_num), if_neg (by norm_num)]
  norm_num

/-- C5: with any fixed energy, diameter and angle and a positive path length,
doubling the path length strictly decreases both the raw `estimated_flux`
product and its floored value, unless the post-floor value is already clamped
at the `1e-5` floor. -/
theorem C5_doubling_path_decreases_flux (energy channel_diameter detector_angle path_length : ℚ)
    (hL : 0 < path_length) :
    (estimated_flux_raw energy channel_diameter detector_angle (2 * path_length)
        < estimated_flux_raw energy channel_diameter detector_angle path_length ∨
      estimated_flux energy channel_diameter detector_angle path_length = 1e-5) ∧
    (estimated_flux energy channel_diameter detector_angle (2 * path_length)
        < estimated_flux energy channel_diameter detector_angle path_length ∨
      estimated_flux energy channel_diameter detector_angle path_length = 1e-5) := by
  rcases le_or_lt (estimated_flux_raw energy channel_diameter detector_angle path_length)
    (1e-5 : ℝ) with hle | hgt
  · have hfl : estimated_flux energy channel_diameter detector_angle path_length = 1e-5 :=
      max_eq_right hle
    exact ⟨Or.inr hfl, Or.inr hfl⟩
  · have hk : (0 : ℝ) < (atten_coeff energy : ℝ) := by exact_mod_cast atten_coeff_pos energy
    have hLr : (0 : ℝ) < (path_length : ℝ) := by exact_mod_cast hL
    have hexp1 : (0 : ℝ) < Real.exp (-(atten_coeff energy : ℝ) * (path_length : ℝ)) :=
      Real.exp_pos _
    have hinv1 : (0 : ℝ) < 1 / (path_length : ℝ) ^ 2 := by positivity
    have hC : (0 : ℝ) < 1e12 * calculate_solid_angle source_to_wall_distance
        (channel_diameter / 2) *
        Real.cos (((min detector_angle 80 : ℚ) : ℝ) * Real.pi / 180) *
        (Real.pi * ((detector_diameter : ℝ) / 2) ^ 2) := by
      have hraw := lt_trans (by norm_num : (0 : ℝ) < 1e-5) hgt
      rw [estimated_flux_raw_repr] at hraw
      by_contra hc
      push_neg at hc
      nlinarith [mul_pos hexp1 hinv1]
    have hdec : estimated_flux_raw energy channel_diameter detector_angle (2 * path_length)
        < estimated_flux_raw energy channel_diameter detector_angle path_length := by
      rw [estimated_flux_raw_repr, estimated_flux_raw_repr]
      have hcast : ((2 * path_length : ℚ) : ℝ) = 2 * (path_length : ℝ) := by push_cast; ring
      rw [hcast]
      have he2 : Real.exp (-(atten_coeff energy : ℝ) * (2 * (path_length : ℝ)))
          ≤ Real.exp (-(atten_coeff energy : ℝ) * (path_length : ℝ)) :=
        Real.exp_le_exp.mpr (by nlinarith)
      have hi2 : (1 : ℝ) / (2 * (path_length : ℝ)) ^ 2 < 1 / (path_length : ℝ) ^ 2 :=
        one_div_lt_one_div_of_lt (by positivity) (by nlinarith)
      have hmain : Real.exp (-(atten_coeff energy : ℝ) * (2 * (path_length : ℝ))) *
          (1 / (2 * (path_length : ℝ)) ^ 2)
          < Real.exp (-(atten_coeff energy : ℝ) * (path_length : ℝ)) *
          (1 / (path_length : ℝ) ^ 2) :=
        lt_of_le_of_lt (mul_le_mul_of_nonneg_right he2 (by positivity))
          (mul_lt_mul_of_pos_left hi2 hexp1)
      exact mul_lt_mul_of_pos_left hmain hC
    have hfl1 : estimated_flux energy channel_diameter detector_angle path_length =
        estimated_flux_raw energy channel_diameter detector_angle path_length :=
      max_eq_left hgt.le
    refine ⟨Or.inl hdec, Or.inl ?_⟩
    rw [hfl1, estimated_flux]
    exact max_lt hdec hgt

/-- Witness for C5 at energy 1, diameter 1, angle 0, path length 1. -/
theorem C5_witness :
    (estimated_flux_raw 1 1 0 (2 * 1) < estimated_flux_raw 1 1 0 1 ∨
      estimated_flux 1 1 0 1 = 1e-5) ∧
    (estimated_flux 1 1 0 (2 * 1) < estimated_flux 1 1 0 1 ∨
      estimated_flux 1 1 0 1 = 1e-5) :=
  C5_doubling_path_decreases_flux 1 1 0 1 (by norm_num)

/-! ## Lemmas about one simulation run -/

/-- The fallback path length is positive for non-negative detector distances. -/
lemma fallback_path_length_pos (dist : ℚ) (hdist : 0 ≤ dist) : 0 < fallback_path_length dist := by
  rw [fallback_path_length, source_to_wall_distance, wall_thickness, ft_to_cm]
  have h : (0 : ℚ) < 6 * (30.48 : ℚ) + 2 * (30.48 : ℚ) := by norm_num
  linarith

/-- For the geometries `run_simulation` actually passes (non-negative distance
and angle) the analytic fallback never divides by zero. -/
lemma fallback_dose_isSome (e d dist ang : ℚ) (hdist : 0 ≤ dist) (hang : 0 ≤ ang) :
    ∃ v, fallback_dose e d dist ang = some v := by
  rw [fallback_dose, estimate_physics_based_dose,
    if_neg (by simpa using pow_ne_zero 2 (ne_of_gt (fallback_path_length_pos dist hdist))),
    if_neg (by positivity)]
  exact ⟨_, rfl⟩

/-- Any value the analytic fallback returns is non-negative. -/
lemma fallback_dose_nonneg (e d dist ang : ℚ) (v : ℝ)
    (h : fallback_dose e d dist ang = some v) : 0 ≤ v := by
  rw [fallback_dose, estimate_physics_based_dose] at h
  split at h
  · exact absurd h (by simp)
  · split at h
    · exact absurd h (by simp)
    · rw [Option.some_inj] at h
      have hA : (0 : ℝ) ≤ estimated_flux e d ang (fallback_path_length dist) *
          ((get_flux_to_dose_factor e : ℚ) : ℝ) * (e : ℝ) ^ 2 := by
        have h₁ : (0 : ℝ) ≤ estimated_flux e d ang (fallback_path_length dist) :=
          le_trans (by norm_num) (estimated_flux_ge _ _ _ _)
        have h₂ : (0 : ℝ) ≤ ((get_flux_to_dose_factor e : ℚ) : ℝ) := by
          exact_mod_cast (get_flux_to_dose_factor_pos e).le
        positivity
      rw [← h]
      exact le_trans hA (le_max_left _ _)

/-- Reduction of the handler when the fallback estimate succeeds. -/
lemma except_handler_eq (e d dist ang : ℚ) (cwd : String) (n m : ℕ) (v : ℝ)
    (hv : fallback_dose e d dist ang = some v) :
    except_handler e d dist ang cwd n m =
      ⟨Except.ok (minimal_result e d dist ang v), cwd, n + 1, m⟩ := by
  rw [except_handler, hv]

/-- The handler always leaves the process back in the original directory. -/
lemma except_handler_finalDir (e d dist ang : ℚ) (cwd : String) (n m : ℕ) :
    (except_handler e d dist ang cwd n m).finalDir = cwd := by
  rw [except_handler]
  cases h : fallback_dose e d dist ang <;> rfl

/-- Reduction of the post-processing when statistics are adequate and no
visualization failure occurs. -/
lemma post_extract_high_eq (e d dist ang : ℚ) (sp : List ℚ) (mesh : List (List ℚ))
    (cwd : String)
    (hhigh : ¬(sp.sum < 1e-6 ∨ sp.sum * get_flux_to_dose_factor e < 1e-10)) :
    post_extract e d dist ang sp mesh cwd none =
      ⟨Except.ok (full_result e d dist ang sp mesh
          ((sp.sum * get_flux_to_dose_factor e : ℚ) : ℝ)),
        cwd, 0, 1⟩ := by
  rw [post_extract]
  simp only [if_neg hhigh]

/-- Reduction of the post-processing on the silent statistical fallback with
no visualization failure. -/
lemma post_extract_low_eq (e d dist ang : ℚ) (sp : List ℚ) (mesh : List (List ℚ))
    (cwd : String) (v : ℝ) (hv : fallback_dose e d dist ang = some v)
    (hlow : sp.sum < 1e-6 ∨ sp.sum * get_flux_to_dose_factor e < 1e-10) :
    post_extract e d dist ang sp mesh cwd none =
      ⟨Except.ok (full_result e d dist ang sp mesh v), cwd, 1, 1⟩ := by
  rw [post_extract]
  simp only [if_pos hlow, hv]

/-- The post-processing also leaves the process in the original directory, for
every visualization outcome. -/
lemma post_extract_finalDir (e d dist ang : ℚ) (sp : List ℚ) (mesh : List (List ℚ))
    (cwd : String) (vizFail : Option PyExc) :
    (post_extract e d dist ang sp mesh cwd vizFail).finalDir = cwd := by
  rw [post_extract]
  split
  · cases h : fallback_dose e d dist ang with
    | none => rfl
    | some v =>
        cases vizFail with
        | none => rfl
        | some c =>
            by_cases hc : c.isException = true
            · simp only [hc, if_true]
              exact except_handler_finalDir _ _ _ _ _ _ _
            · simp only [Bool.not_eq_true] at hc
              simp only [hc]
              rfl
  · cases vizFail with
    | none => rfl
    | some c =>
        by_cases hc : c.isException = true
        · simp only [hc, if_true]
          exact except_handler_finalDir _ _ _ _ _ _ _
        · simp only [Bool.not_eq_true] at hc
          simp only [hc]
          rfl

/-- The handler's engine-run count is whatever the caller accumulated. -/
lemma except_handler_engineRuns (e d dist ang : ℚ) (cwd : String) (n m : ℕ) :
    (except_handler e d dist ang cwd n m).engineRuns = m := by
  rw [except_handler]
  cases h : fallback_dose e d dist ang <;> rfl

/-- The post-processing always reports exactly one engine run. -/
lemma post_extract_engineRuns (e d dist ang : ℚ) (sp : List ℚ) (mesh : List (List ℚ))
    (cwd : String) (vizFail : Option PyExc) :
    (post_extract e d dist ang sp mesh cwd vizFail).engineRuns = 1 := by
  rw [post_extract]
  split
  · cases h : fallback_dose e d dist ang with
    | none => rfl
    | some v =>
        cases vizFail with
        | none => rfl
        | some c =>
            by_cases hc : c.isException = true
            · simp only [hc, if_true]
              exact except_handler_engineRuns _ _ _ _ _ _ _
            · simp only [Bool.not_eq_true] at hc
              simp only [hc]
              rfl
  · cases vizFail with
    | none => rfl
    | some c =>
        by_cases hc : c.isException = true
        · simp only [hc, if_true]
          exact except_handler_engineRuns _ _ _ _ _ _ _
        · simp only [Bool.not_eq_true] at hc
          simp only [hc]
          rfl

/-- A dict returned by the handler carries the (non-negative) fallback dose. -/
lemma except_handler_ok (e d dist ang : ℚ) (cwd : String) (n m : ℕ) (r : SimResult)
    (h : (except_handler e d dist ang cwd n m).result = Except.ok r) :
    fallback_dose e d dist ang = some r.dose_rem_per_hr ∧
      r = minimal_result e d dist ang r.dose_rem_per_hr := by
  rw [except_handler] at h
  cases hf : fallback_dose e d dist ang with
  | none => rw [hf] at h; simp at h
  | some v =>
      rw [hf] at h
      simp only [Except.ok.injEq] at h
      subst h
      exact ⟨rfl, rfl⟩

/-- Any dict the post-processing returns carries a non-negative dose. -/
lemma post_extract_dose_nonneg (e d dist ang : ℚ) (sp : List ℚ) (mesh : List (List ℚ))
    (cwd : String) (vizFail : Option PyExc) (r : SimResult)
    (h : (post_extract e d dist ang sp mesh cwd vizFail).result = Except.ok r) :
    0 ≤ r.dose_rem_per_hr := by
  rw [post_extract] at h
  by_cases hlow : sp.sum < 1e-6 ∨ sp.sum * get_flux_to_dose_factor e < 1e-10
  · rw [if_pos hlow] at h
    cases hf : fallback_dose e d dist ang with
    | none => rw [hf] at h; simp at h
    | some v =>
        rw [hf] at h
        have hv := fallback_dose_nonneg e d dist ang v hf
        cases vizFail with
        | none =>
            simp only [Except.ok.injEq] at h
            rw [← h]
            exact hv
        | some c =>
            by_cases hc : c.isException = true
            · simp only [hc, if_true] at h
              obtain ⟨hf', hr⟩ := except_handler_ok e d dist ang cwd 1 1 r h
              exact fallback_dose_nonneg e d dist ang _ hf'
            · simp only [Bool.not_eq_true] at hc
              simp only [hc] at h
              simp at h
  · rw [if_neg hlow] at h
    push_neg at hlow
    have hdose : (0 : ℚ) ≤ sp.sum * get_flux_to_dose_factor e :=
      le_trans (by norm_num) hlow.2
    cases vizFail with
    | none =>
        simp only [Except.ok.injEq] at h
        rw [← h]
        show (0 : ℝ) ≤ ((sp.sum * get_flux_to_dose_factor e : ℚ) : ℝ)
        exact_mod_cast hdose
    | some c =>
        by_cases hc : c.isException = true
        · simp only [hc, if_true] at h
          obtain ⟨hf', hr⟩ := except_handler_ok e d dist ang cwd 0 1 r h
          exact fallback_dose_nonneg e d dist ang _ hf'
        · simp only [Bool.not_eq_true] at hc
          simp only [hc] at h
          simp at h

/-- Any dict `run_simulation` returns carries a non-negative dose. -/
lemma run_result_dose_nonneg (e d dist ang : ℚ) (oracle : RunOracle) (cwd : String)
    (r : SimResult)
    (h : (run_simulation e d dist ang oracle cwd).result = Except.ok r) :
    0 ≤ r.dose_rem_per_hr := by
  rw [run_simulation] at h
  rcases hfa : oracle.failAt with - | ⟨p, c⟩
  · rw [hfa] at h
    exact post_extract_dose_nonneg e d dist ang oracle.spectrum oracle.mesh cwd none r h
  · rw [hfa] at h
    cases p with
    | build => simp at h
    | exportXml =>
        by_cases hc : c.isException = true
        · simp only [hc, if_true] at h
          exact fallback_dose_nonneg e d dist ang _ (except_handler_ok e d dist ang cwd 0 0 r h).1
        · simp only [Bool.not_eq_true] at hc
          simp only [hc] at h
          simp at h
    | engine =>
        by_cases hc : c.isException = true
        · simp only [hc, if_true] at h
          exact fallback_dose_nonneg e d dist ang _ (except_handler_ok e d dist ang cwd 0 1 r h).1
        · simp only [Bool.not_eq_true] at hc
          simp only [hc] at h
          simp at h
    | extract =>
        by_cases hc : c.isException = true
        · simp only [hc, if_true] at h
          exact fallback_dose_nonneg e d dist ang _ (except_handler_ok e d dist ang cwd 0 1 r h).1
        · simp only [Bool.not_eq_true] at hc
          simp only [hc] at h
          simp at h
    | visualize =>
        exact post_extract_dose_nonneg e d dist ang oracle.spectrum oracle.mesh cwd (some c) r h

/-- `except Exception` misses exactly the interrupt class. -/
lemma isException_eq_false_iff (c : PyExc) : c.isException = false ↔ c = PyExc.interrupt := by
  cases c <;> simp [PyExc.isException]

/-- At zero energy the analytic fallback returns exactly zero: the `energy**2`
scaling and the `min_dose` floor both vanish. -/
lemma fallback_dose_zero_energy : fallback_dose 0 1 30 0 = some 0 := by
  rw [fallback_dose, estimate_physics_based_dose,
    if_neg (by simpa using pow_ne_zero 2 (ne_of_gt (fallback_path_length_pos 30 (by norm_num)))),
    if_neg (by norm_num)]
  norm_num

/-- Reduction of the post-processing on the statistical-fallback path when the
visualization step then raises a caught exception. -/
lemma post_extract_viz_low_eq (e d dist ang : ℚ) (sp : List ℚ) (mesh : List (List ℚ))
    (cwd : String) (v : ℝ) (hv : fallback_dose e d dist ang = some v)
    (hlow : sp.sum < 1e-6 ∨ sp.sum * get_flux_to_dose_factor e < 1e-10)
    (c : PyExc) (hexc : c.isException = true) :
    post_extract e d dist ang sp mesh cwd (some c) = except_handler e d dist ang cwd 1 1 := by
  rw [post_extract]
  simp only [if_pos hlow, hv, hexc, if_true]

/-- Reduction of the post-processing on the adequate-statistics path when the
visualization step then raises a caught exception. -/
lemma post_extract_viz_high_eq (e d dist ang : ℚ) (sp : List ℚ) (mesh : List (List ℚ))
    (cwd : String)
    (hhigh : ¬(sp.sum < 1e-6 ∨ sp.sum * get_flux_to_dose_factor e < 1e-10))
    (c : PyExc) (hexc : c.isException = true) :
    post_extract e d dist ang sp mesh cwd (some c) = except_handler e d dist ang cwd 0 1 := by
  rw [post_extract]
  simp only [if_neg hhigh, hexc, if_true]

/-- The engine is invoked at most once per `run_simulation` call: there are no
retries within a configuration. -/
lemma run_simulation_engineRuns (e d dist ang : ℚ) (oracle : RunOracle) (cwd : String) :
    (run_simulation e d dist ang oracle cwd).engineRuns ≤ 1 := by
  rw [run_simulation]
  rcases hfa : oracle.failAt with - | ⟨p, c⟩
  · exact (post_extract_engineRuns e d dist ang oracle.spectrum oracle.mesh cwd none).le
  · cases p with
    | build => exact Nat.zero_le 1
    | exportXml =>
        by_cases hexc : c.isException = true
        · simp only [hexc, if_true]
          rw [except_handler_engineRuns]
          omega
        · simp only [Bool.not_eq_true] at hexc
          simp only [hexc]
          exact Nat.zero_le 1
    | engine =>
        by_cases hexc : c.isException = true
        · simp only [hexc, if_true]
          rw [except_handler_engineRuns]
        · simp only [Bool.not_eq_true] at hexc
          simp only [hexc]
          exact le_refl 1
    | extract =>
        by_cases hexc : c.isException = true
        · simp only [hexc, if_true]
          rw [except_handler_engineRuns]
        · simp only [Bool.not_eq_true] at hexc
          simp only [hexc]
          exact le_refl 1
    | visualize =>
        exact (post_extract_engineRuns e d dist ang oracle.spectrum oracle.mesh cwd (some c)).le

/-- C2 (amended): for every run in which no phase raises — so the Monte Carlo
extraction succeeds and nothing after it fails either — the returned
`dose_rem_per_hr` is the analytic estimate at `path_length =
source_to_wall_distance + wall_thickness + detector_distance` when
`total_flux < 1e-6` or `total_flux * factor < 1e-10`, and is exactly
`total_flux * factor_for_energy(energy)` otherwise. -/
theorem C2_threshold_fallback (e d dist ang : ℚ) (oracle : RunOracle) (cwd : String)
    (hdist : 0 ≤ dist) (hang : 0 ≤ ang) (hok : oracle.failAt = none) :
    ((oracle.spectrum.sum < 1e-6 ∨ oracle.spectrum.sum * get_flux_to_dose_factor e < 1e-10) →
      ∃ r, (run_simulation e d dist ang oracle cwd).result = Except.ok r ∧
        fallback_dose e d dist ang = some r.dose_rem_per_hr) ∧
    (¬(oracle.spectrum.sum < 1e-6 ∨ oracle.spectrum.sum * get_flux_to_dose_factor e < 1e-10) →
      ∃ r, (run_simulation e d dist ang oracle cwd).result = Except.ok r ∧
        r.dose_rem_per_hr = ((oracle.spectrum.sum * get_flux_to_dose_factor e : ℚ) : ℝ)) := by
  have hrun : run_simulation e d dist ang oracle cwd
      = post_extract e d dist ang oracle.spectrum oracle.mesh cwd none := by
    rw [run_simulation, hok]
  constructor
  · intro hlow
    obtain ⟨v, hv⟩ := fallback_dose_isSome e d dist ang hdist hang
    rw [hrun, post_extract_low_eq e d dist ang oracle.spectrum oracle.mesh cwd v hv hlow]
    refine ⟨full_result e d dist ang oracle.spectrum oracle.mesh v, rfl, ?_⟩
    rw [hv]
    rfl
  · intro hhigh
    rw [hrun, post_extract_high_eq e d dist ang oracle.spectrum oracle.mesh cwd hhigh]
    exact ⟨_, rfl, rfl⟩

/-- Witness for C2: a spectrum summing to `1e-7` is below the flux threshold,
so the returned dose is the analytic fallback. -/
theorem C2_witness :
    ∃ r, (run_simulation 1 1 30 0 ⟨none, [1e-7], []⟩ "w").result = Except.ok r ∧
      fallback_dose 1 1 30 0 = some r.dose_rem_per_hr :=
  (C2_threshold_fallback 1 1 30 0 ⟨none, [1e-7], []⟩ "w" (by norm_num) (by norm_num) rfl).1
    (Or.inl (by show List.sum [(1e-7 : ℚ)] < 1e-6; norm_num))

/-- Counterexample to C2 as stated: with zero energy, a spectrum summing to 1
(statistically adequate) and an exception raised by the visualization step
after a fully successful extraction, the `except Exception` handler replaces
the dose with the analytic fallback value 0, so the returned dose is not
`total_flux * factor` even though the Monte Carlo extraction succeeded and
neither threshold fired. -/
theorem C2_counterexample :
    ∃ r, (run_simulation 0 1 30 0 ⟨some (RunPhase.visualize, PyExc.general), [1], []⟩ "w").result
        = Except.ok r ∧
      r.dose_rem_per_hr = 0 ∧
      ¬(List.sum [(1 : ℚ)] < 1e-6 ∨
          List.sum [(1 : ℚ)] * get_flux_to_dose_factor 0 < 1e-10) ∧
      r.dose_rem_per_hr ≠ ((List.sum [(1 : ℚ)] * get_flux_to_dose_factor 0 : ℚ) : ℝ) := by
  have hfac : get_flux_to_dose_factor 0 = 3.96e-6 := factor_clamp_low (by norm_num)
  have hhigh : ¬(List.sum [(1 : ℚ)] < 1e-6 ∨
      List.sum [(1 : ℚ)] * get_flux_to_dose_factor 0 < 1e-10) := by
    rw [hfac]
    push_neg
    norm_num
  have hrun : (run_simulation 0 1 30 0
      ⟨some (RunPhase.visualize, PyExc.general), [1], []⟩ "w")
      = except_handler 0 1 30 0 "w" 0 1 := by
    show post_extract 0 1 30 0 [1] [] "w" (some PyExc.general) = _
    exact post_extract_viz_high_eq 0 1 30 0 [1] [] "w" hhigh PyExc.general rfl
  rw [hrun, except_handler_eq 0 1 30 0 "w" 0 1 0 fallback_dose_zero_energy]
  refine ⟨minimal_result 0 1 30 0 0, rfl, rfl, hhigh, ?_⟩
  show (0 : ℝ) ≠ ((List.sum [(1 : ℚ)] * get_flux_to_dose_factor 0 : ℚ) : ℝ)
  rw [hfac]
  norm_num

/-- C3 (amended): the returned dict always carries `dose_rem_per_hr` (it is a
non-optional field); `total_flux`, `spectrum` and `mesh_result` are present on
every run whose `try` block raises nothing — including the silent statistical
fallback, where the dose is replaced but the flux fields are still emitted —
and are omitted exactly on the caught-exception path, where the dict holds
only the four configuration fields, the detector position and the fallback
dose. -/
theorem C3_result_field_presence (e d dist ang : ℚ) (oracle : RunOracle) (cwd : String)
    (hdist : 0 ≤ dist) (hang : 0 ≤ ang) :
    (oracle.failAt = none →
      ∃ r, (run_simulation e d dist ang oracle cwd).result = Except.ok r ∧
        r.total_flux = some oracle.spectrum.sum ∧ r.spectrum = some oracle.spectrum ∧
        r.mesh_result = some oracle.mesh) ∧
    (∀ p c, oracle.failAt = some (p, c) → p ≠ RunPhase.build → c.isException = true →
      ∃ r, (run_simulation e d dist ang oracle cwd).result = Except.ok r ∧
        r.total_flux = none ∧ r.spectrum = none ∧ r.mesh_result = none ∧
        r.energy = e ∧ r.channel_diameter = d ∧ r.detector_distance = dist ∧
        r.detector_angle = ang ∧ r.detector_x = detector_x dist ang ∧
        r.detector_y = detector_y dist ang ∧
        fallback_dose e d dist ang = some r.dose_rem_per_hr) := by
  obtain ⟨v, hv⟩ := fallback_dose_isSome e d dist ang hdist hang
  constructor
  · intro hok
    have hrun : run_simulation e d dist ang oracle cwd
        = post_extract e d dist ang oracle.spectrum oracle.mesh cwd none := by
      rw [run_simulation, hok]
    by_cases hlow : oracle.spectrum.sum < 1e-6 ∨
        oracle.spectrum.sum * get_flux_to_dose_factor e < 1e-10
    · rw [hrun, post_extract_low_eq e d dist ang oracle.spectrum oracle.mesh cwd v hv hlow]
      exact ⟨_, rfl, rfl, rfl, rfl⟩
    · rw [hrun, post_extract_high_eq e d dist ang oracle.spectrum oracle.mesh cwd hlow]
      exact ⟨_, rfl, rfl, rfl, rfl⟩
  · intro p c hfa hpb hexc
    have hmin : ∀ n m : ℕ,
        (run_simulation e d dist ang oracle cwd) = except_handler e d dist ang cwd n m →
        ∃ r, (run_simulation e d dist ang oracle cwd).result = Except.ok r ∧
          r.total_flux = none ∧ r.spectrum = none ∧ r.mesh_result = none ∧
          r.energy = e ∧ r.channel_diameter = d ∧ r.detector_distance = dist ∧
          r.detector_angle = ang ∧ r.detector_x = detector_x dist ang ∧
          r.detector_y = detector_y dist ang ∧
          fallback_dose e d dist ang = some r.dose_rem_per_hr := by
      intro n m hrun
      rw [hrun, except_handler_eq e d dist ang cwd n m v hv]
      refine ⟨minimal_result e d dist ang v, rfl, rfl, rfl, rfl, rfl, rfl, rfl, rfl, rfl, rfl, ?_⟩
      rw [hv]
      rfl
    cases p with
    | build => exact absurd rfl hpb
    | exportXml =>
        exact hmin 0 0 (by rw [run_simulation, hfa]; simp only [hexc, if_true])
    | engine =>
        exact hmin 0 1 (by rw [run_simulation, hfa]; simp only [hexc, if_true])
    | extract =>
        exact hmin 0 1 (by rw [run_simulation, hfa]; simp only [hexc, if_true])
    | visualize =>
        by_cases hlow : oracle.spectrum.sum < 1e-6 ∨
            oracle.spectrum.sum * get_flux_to_dose_factor e < 1e-10
        · refine hmin 1 1 ?_
          rw [run_simulation, hfa]
          exact post_extract_viz_low_eq e d dist ang oracle.spectrum oracle.mesh cwd v hv
            hlow c hexc
        · refine hmin 0 1 ?_
          rw [run_simulation, hfa]
          exact post_extract_viz_high_eq e d dist ang oracle.spectrum oracle.mesh cwd
            hlow c hexc

/-- Witness for C3: an engine failure yields the minimal dict with the flux
fields omitted. -/
theorem C3_witness :
    ∃ r, (run_simulation 1 1 30 0 ⟨some (RunPhase.engine, PyExc.general), [], []⟩ "w").result
        = Except.ok r ∧
      r.total_flux = none ∧ r.spectrum = none ∧ r.mesh_result = none ∧
      r.energy = 1 ∧ r.channel_diameter = 1 ∧ r.detector_distance = 30 ∧
      r.detector_angle = 0 ∧ r.detector_x = detector_x 30 0 ∧
      r.detector_y = detector_y 30 0 ∧
      fallback_dose 1 1 30 0 = some r.dose_rem_per_hr :=
  (C3_result_field_presence 1 1 30 0 ⟨some (RunPhase.engine, PyExc.general), [], []⟩ "w"
      (by norm_num) (by norm_num)).2
    RunPhase.engine PyExc.general rfl (by simp) rfl

/-- Counterexample to C3 as stated: a run whose extraction succeeds but whose
statistics are insufficient (`total_flux = 1e-7 < 1e-6`, the spec's defined
notion of unusable statistics) still returns `total_flux`, `spectrum` and
`mesh_result`, so the fields are not present "only when the Monte Carlo path
succeeded and produced usable statistics". -/
theorem C3_counterexample :
    ∃ r, (run_simulation 1 1 30 0 ⟨none, [1e-7], []⟩ "w").result = Except.ok r ∧
      r.total_flux = some (List.sum [(1e-7 : ℚ)]) ∧
      r.spectrum = some [(1e-7 : ℚ)] ∧ r.mesh_result = some [] ∧
      List.sum [(1e-7 : ℚ)] < 1e-6 := by
  have hlow : List.sum [(1e-7 : ℚ)] < 1e-6 ∨
      List.sum [(1e-7 : ℚ)] * get_flux_to_dose_factor 1 < 1e-10 :=
    Or.inl (by norm_num)
  obtain ⟨v, hv⟩ := fallback_dose_isSome 1 1 30 0 (by norm_num) (by norm_num)
  have hrun : run_simulation 1 1 30 0 ⟨none, [1e-7], []⟩ "w"
      = post_extract 1 1 30 0 [1e-7] [] "w" none := by
    rw [run_simulation]
  rw [hrun, post_extract_low_eq 1 1 30 0 [1e-7] [] "w" v hv hlow]
  exact ⟨_, rfl, rfl, rfl, rfl, by norm_num⟩

/-- C6 (amended): an `Exception` raised inside the `try` block — model
export, engine invocation, or statepoint extraction — is caught, triggers
exactly one analytic fallback estimate and no retry, and `run_simulation`
returns normally; the engine runs at most once per call; but an exception in
the construction phase before the `try` (materials, geometry, source,
tallies) propagates out of `run_simulation` uncaught, with no fallback
estimate at all. -/
theorem C6_exception_fallback (e d dist ang : ℚ) (oracle : RunOracle) (cwd : String)
    (hdist : 0 ≤ dist) (hang : 0 ≤ ang) :
    (∀ p c, oracle.failAt = some (p, c) → c.isException = true →
      (p = RunPhase.exportXml ∨ p = RunPhase.engine ∨ p = RunPhase.extract) →
      ∃ r, (run_simulation e d dist ang oracle cwd).result = Except.ok r ∧
        (run_simulation e d dist ang oracle cwd).estimateCalls = 1 ∧
        fallback_dose e d dist ang = some r.dose_rem_per_hr) ∧
    (run_simulation e d dist ang oracle cwd).engineRuns ≤ 1 ∧
    (∀ c, oracle.failAt = some (RunPhase.build, c) →
      (run_simulation e d dist ang oracle cwd).result = Except.error c ∧
      (run_simulation e d dist ang oracle cwd).estimateCalls = 0) := by
  obtain ⟨v, hv⟩ := fallback_dose_isSome e d dist ang hdist hang
  refine ⟨?_, run_simulation_engineRuns e d dist ang oracle cwd, ?_⟩
  · intro p c hfa hexc hp
    have hcase : ∀ m : ℕ,
        run_simulation e d dist ang oracle cwd = except_handler e d dist ang cwd 0 m →
        ∃ r, (run_simulation e d dist ang oracle cwd).result = Except.ok r ∧
          (run_simulation e d dist ang oracle cwd).estimateCalls = 1 ∧
          fallback_dose e d dist ang = some r.dose_rem_per_hr := by
      intro m hrun
      rw [hrun, except_handler_eq e d dist ang cwd 0 m v hv]
      refine ⟨minimal_result e d dist ang v, rfl, rfl, ?_⟩
      rw [hv]
      rfl
    rcases hp with rfl | rfl | rfl
    · exact hcase 0 (by rw [run_simulation, hfa]; simp only [hexc, if_true])
    · exact hcase 1 (by rw [run_simulation, hfa]; simp only [hexc, if_true])
    · exact hcase 1 (by rw [run_simulation, hfa]; simp only [hexc, if_true])
  · intro c hfa
    constructor
    · rw [run_simulation, hfa]
    · rw [run_simulation, hfa]

/-- Witness for C6: an extraction failure is absorbed into exactly one
fallback estimate. -/
theorem C6_witness :
    ∃ r, (run_simulation 1 1 30 0 ⟨some (RunPhase.extract, PyExc.general), [], []⟩ "w").result
        = Except.ok r ∧
      (run_simulation 1 1 30 0
        ⟨some (RunPhase.extract, PyExc.general), [], []⟩ "w").estimateCalls = 1 ∧
      fallback_dose 1 1 30 0 = some r.dose_rem_per_hr :=
  (C6_exception_fallback 1 1 30 0 ⟨some (RunPhase.extract, PyExc.general), [], []⟩ "w"
      (by norm_num) (by norm_num)).1
    RunPhase.extract PyExc.general rfl rfl (Or.inr (Or.inr rfl))

/-- Counterexample to C6 as stated: an exception raised while building the
model (the phase before the `try` block) propagates out of `run_simulation`
uncaught and triggers no fallback estimate, contradicting the claim for the
BUILD phase. -/
theorem C6_counterexample :
    (run_simulation 1 1 30 0 ⟨some (RunPhase.build, PyExc.general), [], []⟩ "w").result
        = Except.error PyExc.general ∧
    (run_simulation 1 1 30 0
      ⟨some (RunPhase.build, PyExc.general), [], []⟩ "w").estimateCalls = 0 :=
  ⟨rfl, rfl⟩

/-- C7 (amended): `run_simulation` restores the prior working directory on
normal return and on every propagated or caught `Exception`; the only exit
path that leaves the process in the run directory is a `KeyboardInterrupt`
raised during the engine invocation, which `except Exception` does not
catch. -/
theorem C7_cwd_restoration (e d dist ang : ℚ) (oracle : RunOracle) (cwd : String)
    (h : oracle.failAt ≠ some (RunPhase.engine, PyExc.interrupt)) :
    (run_simulation e d dist ang oracle cwd).finalDir = cwd := by
  rw [run_simulation]
  rcases hfa : oracle.failAt with - | ⟨p, c⟩
  · exact post_extract_finalDir e d dist ang oracle.spectrum oracle.mesh cwd none
  · cases p with
    | build => rfl
    | exportXml =>
        by_cases hexc : c.isException = true
        · simp only [hexc, if_true]
          exact except_handler_finalDir e d dist ang cwd 0 0
        · simp only [Bool.not_eq_true] at hexc
          simp only [hexc]
          rfl
    | engine =>
        by_cases hexc : c.isException = true
        · simp only [hexc, if_true]
          exact except_handler_finalDir e d dist ang cwd 0 1
        · simp only [Bool.not_eq_true] at hexc
          rw [(isException_eq_false_iff c).mp hexc] at hfa
          exact absurd hfa h
    | extract =>
        by_cases hexc : c.isException = true
        · simp only [hexc, if_true]
          exact except_handler_finalDir e d dist ang cwd 0 1
        · simp only [Bool.not_eq_true] at hexc
          simp only [hexc]
          rfl
    | visualize =>
        exact post_extract_finalDir e d dist ang oracle.spectrum oracle.mesh cwd (some c)

/-- Witness for C7: a fully successful run ends back in the starting
directory. -/
theorem C7_witness : (run_simulation 1 1 30 0 ⟨none, [], []⟩ "w").finalDir = "w" :=
  C7_cwd_restoration 1 1 30 0 ⟨none, [], []⟩ "w" (by simp)

/-- Counterexample to C7 as stated: a `KeyboardInterrupt` during the engine
invocation is not caught by `except Exception`, so `run_simulation` exits with
the process still in the per-run directory, not the one it started in. -/
theorem C7_counterexample :
    (run_simulation 1 1 30 0 ⟨some (RunPhase.engine, PyExc.interrupt), [], []⟩ "w").finalDir
        = run_dir_name 1 1 30 0 ∧
    run_dir_name 1 1 30 0 ≠ "w" := by
  refine ⟨rfl, ?_⟩
  decide

/-! ## Lemmas about the result store and the sweep -/

/-- Looking up the key just written returns the new entry. -/
lemma storeLookup_insert_self (s : Store) (k : String) (v : StoreEntry) :
    storeLookup (storeInsert s k v) k = some v := by
  induction s with
  | nil => simp [storeInsert, storeLookup]
  | cons p ps ih =>
      rw [storeInsert]
      by_cases h : p.1 = k
      · simp [storeLookup, h]
      · simp only [if_neg h]
        rw [storeLookup, if_neg h]
        exact ih

/-- Writing one key leaves every other key's entry unchanged. -/
lemma storeLookup_insert_ne (s : Store) (k k' : String) (v : StoreEntry) (h : k' ≠ k) :
    storeLookup (storeInsert s k v) k' = storeLookup s k' := by
  induction s with
  | nil =>
      rw [storeInsert, storeLookup, storeLookup, if_neg (fun hh => h hh.symm), storeLookup]
  | cons p ps ih =>
      rw [storeInsert]
      by_cases hp : p.1 = k
      · rw [if_pos hp, storeLookup, storeLookup, if_neg (fun hh => h hh.symm),
          if_neg (by rw [hp]; exact fun hh => h hh.symm)]
      · rw [if_neg hp, storeLookup, storeLookup]
        by_cases hp' : p.1 = k'
        · rw [if_pos hp', if_pos hp']
        · rw [if_neg hp', if_neg hp']
          exact ih

/-- A key with a dose still has one after any write. -/
lemma hasDose_insert (s : Store) (k k' : String) (v : StoreEntry)
    (hv : v.dose_rem_per_hr.isSome = true) (h : hasDose s k' = true) :
    hasDose (storeInsert s k v) k' = true := by
  by_cases hk : k' = k
  · subst hk
    rw [hasDose, storeLookup_insert_self]
    exact hv
  · rw [hasDose, storeLookup_insert_ne s k k' v hk]
    exact h

/-- The key just written has a dose when the entry does. -/
lemma hasDose_insert_self (s : Store) (k : String) (v : StoreEntry)
    (hv : v.dose_rem_per_hr.isSome = true) : hasDose (storeInsert s k v) k = true := by
  rw [hasDose, storeLookup_insert_self]
  exact hv

/-- A present key stays present after any write. -/
lemma isSome_insert (s : Store) (k k' : String) (v : StoreEntry)
    (h : (storeLookup s k').isSome = true) :
    (storeLookup (storeInsert s k v) k').isSome = true := by
  by_cases hk : k' = k
  · subst hk
    rw [storeLookup_insert_self]
    rfl
  · rw [storeLookup_insert_ne s k k' v hk]
    exact h

/-- The store invariant survives writing an entry that satisfies it. -/
lemma storeInv_insert (s : Store) (k : String) (v : StoreEntry) (hs : storeInv s)
    (hv : ∃ x, v.dose_rem_per_hr = some x ∧ 0 ≤ x) : storeInv (storeInsert s k v) := by
  induction s with
  | nil =>
      intro p hp
      simp only [storeInsert, List.mem_singleton] at hp
      subst hp
      exact hv
  | cons q qs ih =>
      rw [storeInsert]
      by_cases hq : q.1 = k
      · rw [if_pos hq]
        intro p hp
        rcases List.mem_cons.mp hp with rfl | hp'
        · exact hv
        · exact hs p (List.mem_cons_of_mem q hp')
      · rw [if_neg hq]
        intro p hp
        rcases List.mem_cons.mp hp with rfl | hp'
        · exact hs p (List.mem_cons_self p qs)
        · exact ih (fun x hx => hs x (List.mem_cons_of_mem q hx)) p hp'

/-- The entry written for a run result always has a dose field. -/
lemma ofResult_hasDose (r : SimResult) : (StoreEntry.ofResult r).dose_rem_per_hr.isSome = true :=
  rfl

/-- The handler's returned dict does not depend on the working directory. -/
lemma except_handler_result_indep (e d dist ang : ℚ) (cwd cwd' : String) (n m : ℕ) :
    (except_handler e d dist ang cwd n m).result = (except_handler e d dist ang cwd' n m).result := by
  rw [except_handler, except_handler]
  cases h : fallback_dose e d dist ang <;> rfl

/-- The post-processing outcome does not depend on the working directory. -/
lemma post_extract_result_indep (e d dist ang : ℚ) (sp : List ℚ) (mesh : List (List ℚ))
    (cwd cwd' : String) (vizFail : Option PyExc) :
    (post_extract e d dist ang sp mesh cwd vizFail).result =
      (post_extract e d dist ang sp mesh cwd' vizFail).result := by
  rw [post_extract, post_extract]
  split
  · cases h : fallback_dose e d dist ang with
    | none => rfl
    | some v =>
        cases vizFail with
        | none => rfl
        | some c =>
            by_cases hc : c.isException = true
            · simp only [hc, if_true]
              exact except_handler_result_indep e d dist ang cwd cwd' 1 1
            · simp only [Bool.not_eq_true] at hc
              simp only [hc]
              rfl
  · cases vizFail with
    | none => rfl
    | some c =>
        by_cases hc : c.isException = true
        · simp only [hc, if_true]
          exact except_handler_result_indep e d dist ang cwd cwd' 0 1
        · simp only [Bool.not_eq_true] at hc
          simp only [hc]
          rfl

/-- The outcome of one run does not depend on the directory the process
happened to start in. -/
lemma run_result_cwd_indep (e d dist ang : ℚ) (oracle : RunOracle) (cwd cwd' : String) :
    (run_simulation e d dist ang oracle cwd).result =
      (run_simulation e d dist ang oracle cwd').result := by
  rw [run_simulation, run_simulation]
  rcases hfa : oracle.failAt with - | ⟨p, c⟩
  · exact post_extract_result_indep e d dist ang oracle.spectrum oracle.mesh cwd cwd' none
  · cases p with
    | build => rfl
    | exportXml =>
        by_cases hexc : c.isException = true
        · simp only [hexc, if_true]
          exact except_handler_result_indep e d dist ang cwd cwd' 0 0
        · simp only [Bool.not_eq_true] at hexc
          simp only [hexc]
          rfl
    | engine =>
        by_cases hexc : c.isException = true
        · simp only [hexc, if_true]
          exact except_handler_result_indep e d dist ang cwd cwd' 0 1
        · simp only [Bool.not_eq_true] at hexc
          simp only [hexc]
          rfl
    | extract =>
        by_cases hexc : c.isException = true
        · simp only [hexc, if_true]
          exact except_handler_result_indep e d dist ang cwd cwd' 0 1
        · simp only [Bool.not_eq_true] at hexc
          simp only [hexc]
          rfl
    | visualize =>
        exact post_extract_result_indep e d dist ang oracle.spectrum oracle.mesh cwd cwd' (some c)

/-- An interrupted sweep state is a fixed point of the loop body. -/
lemma sweep_step_interrupted (o : String → RunOracle) (st : SweepState) (c : SweepConfig)
    (h : st.interrupted = true) : sweep_step o st c = st := by
  rw [sweep_step, if_pos h]

/-- An interrupted sweep state is a fixed point of the whole sweep. -/
lemma sweep_interrupted (o : String → RunOracle) (cfgs : List SweepConfig) (st : SweepState)
    (h : st.interrupted = true) : sweep o cfgs st = st := by
  induction cfgs with
  | nil => rfl
  | cons c t ih =>
      rw [sweep, List.foldl_cons, sweep_step_interrupted o st c h]
      exact ih

/-- The loop body on a key already present with a dose: skip and count it
completed. -/
lemma sweep_step_skip (o : String → RunOracle) (st : SweepState) (c : SweepConfig)
    (hni : st.interrupted = false) (h : hasDose st.store (config_key c) = true) :
    sweep_step o st c = { st with completed := st.completed + 1 } := by
  rw [sweep_step, if_neg (by simp [hni]), if_pos h]

/-- The loop body when the run returns a dict: store it under the key. -/
lemma sweep_step_ok (o : String → RunOracle) (st : SweepState) (c : SweepConfig) (r : SimResult)
    (hni : st.interrupted = false) (h : hasDose st.store (config_key c) = false)
    (hr : (run_simulation c.1 c.2.1 c.2.2.1 c.2.2.2 (o (config_key c)) st.cwd).result
      = Except.ok r) :
    sweep_step o st c =
      { st with
        store := storeInsert st.store (config_key c) (StoreEntry.ofResult r),
        completed := st.completed + 1,
        runKeys := st.runKeys ++ [config_key c],
        cwd := (run_simulation c.1 c.2.1 c.2.2.1 c.2.2.2 (o (config_key c)) st.cwd).finalDir } := by
  rw [sweep_step, if_neg (by simp [hni]), if_neg (by simp [h])]
  simp only [hr]

/-- The loop body when the run raises an interrupt: persist and terminate. -/
lemma sweep_step_interrupt (o : String → RunOracle) (st : SweepState) (c : SweepConfig)
    (hni : st.interrupted = false) (h : hasDose st.store (config_key c) = false)
    (hr : (run_simulation c.1 c.2.1 c.2.2.1 c.2.2.2 (o (config_key c)) st.cwd).result
      = Except.error PyExc.interrupt) :
    sweep_step o st c =
      { st with
        interrupted := true,
        runKeys := st.runKeys ++ [config_key c],
        cwd := (run_simulation c.1 c.2.1 c.2.2.1 c.2.2.2 (o (config_key c)) st.cwd).finalDir } := by
  rw [sweep_step, if_neg (by simp [hni]), if_neg (by simp [h])]
  simp only [hr]

/-- The loop body when the run raises a caught exception: count a failure and
continue with the store unchanged. -/
lemma sweep_step_err (o : String → RunOracle) (st : SweepState) (c : SweepConfig) (ex : PyExc)
    (hni : st.interrupted = false) (h : hasDose st.store (config_key c) = false)
    (hr : (run_simulation c.1 c.2.1 c.2.2.1 c.2.2.2 (o (config_key c)) st.cwd).result
      = Except.error ex) (hex : ex ≠ PyExc.interrupt) :
    sweep_step o st c =
      { st with
        failed := st.failed + 1,
        runKeys := st.runKeys ++ [config_key c],
        cwd := (run_simulation c.1 c.2.1 c.2.2.1 c.2.2.2 (o (config_key c)) st.cwd).finalDir } := by
  rw [sweep_step, if_neg (by simp [hni]), if_neg (by simp [h])]
  cases ex with
  | interrupt => exact absurd rfl hex
  | general => simp only [hr]
  | zeroDivision => simp only [hr]

/-- One loop iteration either leaves the store unchanged or writes the result
dict of the run it performed under the configuration key. -/
lemma sweep_step_store_eq_or (o : String → RunOracle) (st : SweepState) (c : SweepConfig) :
    (sweep_step o st c).store = st.store ∨
    ∃ r, (run_simulation c.1 c.2.1 c.2.2.1 c.2.2.2 (o (config_key c)) st.cwd).result
        = Except.ok r ∧
      (sweep_step o st c).store = storeInsert st.store (config_key c) (StoreEntry.ofResult r) := by
  by_cases hni : st.interrupted = true
  · left
    rw [sweep_step_interrupted o st c hni]
  · replace hni := (Bool.not_eq_true _).mp hni
    by_cases hd : hasDose st.store (config_key c) = true
    · left
      rw [sweep_step_skip o st c hni hd]
    · replace hd := (Bool.not_eq_true _).mp hd
      cases hres : (run_simulation c.1 c.2.1 c.2.2.1 c.2.2.2 (o (config_key c)) st.cwd).result with
      | ok r =>
          right
          exact ⟨r, rfl, by rw [sweep_step_ok o st c r hni hd hres]⟩
      | error ex =>
          left
          by_cases hexi : ex = PyExc.interrupt
          · subst hexi
            rw [sweep_step_interrupt o st c hni hd hres]
          · rw [sweep_step_err o st c ex hni hd hres hexi]

/-- One loop iteration preserves dose-presence of every key. -/
lemma sweep_step_hasDose_mono (o : String → RunOracle) (st : SweepState) (c : SweepConfig)
    (k : String) (h : hasDose st.store k = true) :
    hasDose (sweep_step o st c).store k = true := by
  rcases sweep_step_store_eq_or o st c with heq | ⟨r, _, heq⟩
  · rw [heq]; exact h
  · rw [heq]
    exact hasDose_insert _ _ _ _ (ofResult_hasDose r) h

/-- One loop iteration preserves presence of every key: the store is
append-only, keys are never deleted. -/
lemma sweep_step_isSome_mono (o : String → RunOracle) (st : SweepState) (c : SweepConfig)
    (k : String) (h : (storeLookup st.store k).isSome = true) :
    (storeLookup (sweep_step o st c).store k).isSome = true := by
  rcases sweep_step_store_eq_or o st c with heq | ⟨r, _, heq⟩
  · rw [heq]; exact h
  · rw [heq]
    exact isSome_insert _ _ _ _ h

/-- One loop iteration preserves the store invariant. -/
lemma sweep_step_storeInv (o : String → RunOracle) (st : SweepState) (c : SweepConfig)
    (h : storeInv st.store) : storeInv (sweep_step o st c).store := by
  rcases sweep_step_store_eq_or o st c with heq | ⟨r, hres, heq⟩
  · rw [heq]; exact h
  · rw [heq]
    exact storeInv_insert _ _ _ h
      ⟨r.dose_rem_per_hr, rfl, run_result_dose_nonneg _ _ _ _ _ _ _ hres⟩

/-- The whole sweep preserves dose-presence of every key. -/
lemma sweep_hasDose_mono (o : String → RunOracle) :
    ∀ (cfgs : List SweepConfig) (st : SweepState) (k : String),
      hasDose st.store k = true → hasDose (sweep o cfgs st).store k = true := by
  intro cfgs
  induction cfgs with
  | nil => intro st k h; exact h
  | cons c t ih =>
      intro st k h
      exact ih (sweep_step o st c) k (sweep_step_hasDose_mono o st c k h)

/-- The sweep never reruns a configuration whose key already has a dose. -/
lemma sweep_no_rerun (o : String → RunOracle) :
    ∀ (cfgs : List SweepConfig) (st : SweepState) (k : String),
      hasDose st.store k = true → k ∉ st.runKeys → k ∉ (sweep o cfgs st).runKeys := by
  intro cfgs
  induction cfgs with
  | nil => intro st k h hk; exact hk
  | cons c t ih =>
      intro st k h hk
      show k ∉ (sweep o t (sweep_step o st c)).runKeys
      by_cases hni : st.interrupted = true
      · rw [sweep_step_interrupted o st c hni]
        exact ih st k h hk
      · replace hni := (Bool.not_eq_true _).mp hni
        by_cases hd : hasDose st.store (config_key c) = true
        · rw [sweep_step_skip o st c hni hd]
          exact ih _ k h hk
        · replace hd := (Bool.not_eq_true _).mp hd
          have hkc : k ≠ config_key c := by
            intro he
            rw [he] at h
            rw [h] at hd
            exact Bool.noConfusion hd
          have hmem : k ∉ st.runKeys ++ [config_key c] := by
            simp only [List.mem_append, List.mem_singleton]
            rintro (hin | hin)
            · exact hk hin
            · exact hkc hin
          cases hres : (run_simulation c.1 c.2.1 c.2.2.1 c.2.2.2
              (o (config_key c)) st.cwd).result with
          | ok r =>
              rw [sweep_step_ok o st c r hni hd hres]
              exact ih _ k (hasDose_insert _ _ _ _ (ofResult_hasDose r) h) hmem
          | error ex =>
              by_cases hexi : ex = PyExc.interrupt
              · subst hexi
                rw [sweep_step_interrupt o st c hni hd hres]
                exact ih _ k h hmem
              · rw [sweep_step_err o st c ex hni hd hres hexi]
                exact ih _ k h hmem

/-- Re-entering the sweep with the final store of a previous sweep (over the
same configurations and with the same external outcome per key) leaves the
store unchanged. -/
lemma sweep_idem (o : String → RunOracle) :
    ∀ (cfgs : List SweepConfig) (st₁ st₂ : SweepState),
      st₁.interrupted = false → st₂.interrupted = false →
      st₂.store = (sweep o cfgs st₁).store →
      (sweep o cfgs st₂).store = st₂.store := by
  intro cfgs
  induction cfgs with
  | nil =>
      intro st₁ st₂ h₁ h₂ hs
      rfl
  | cons c t ih =>
      intro st₁ st₂ h₁ h₂ hs
      have hfold₁ : sweep o (c :: t) st₁ = sweep o t (sweep_step o st₁ c) := rfl
      show (sweep o t (sweep_step o st₂ c)).store = st₂.store
      by_cases hd : hasDose st₁.store (config_key c) = true
      · have hstep₁ : sweep_step o st₁ c = { st₁ with completed := st₁.completed + 1 } :=
          sweep_step_skip o st₁ c h₁ hd
        have hd₂ : hasDose st₂.store (config_key c) = true := by
          rw [hs, hfold₁, hstep₁]
          exact sweep_hasDose_mono o t _ _ hd
        rw [sweep_step_skip o st₂ c h₂ hd₂]
        refine ih { st₁ with completed := st₁.completed + 1 }
          { st₂ with completed := st₂.completed + 1 } h₁ h₂ ?_
        show st₂.store = _
        rw [hs, hfold₁, hstep₁]
      · replace hd := (Bool.not_eq_true _).mp hd
        cases hres : (run_simulation c.1 c.2.1 c.2.2.1 c.2.2.2
            (o (config_key c)) st₁.cwd).result with
        | ok r =>
            have hstep₁ := sweep_step_ok o st₁ c r h₁ hd hres
            have hd₂ : hasDose st₂.store (config_key c) = true := by
              rw [hs, hfold₁, hstep₁]
              exact sweep_hasDose_mono o t _ _
                (hasDose_insert_self st₁.store (config_key c) _ (ofResult_hasDose r))
            rw [sweep_step_skip o st₂ c h₂ hd₂]
            refine ih (sweep_step o st₁ c) { st₂ with completed := st₂.completed + 1 } ?_ h₂ ?_
            · rw [hstep₁]
              exact h₁
            · show st₂.store = _
              rw [hs, hfold₁]
        | error ex =>
            by_cases hexi : ex = PyExc.interrupt
            · subst hexi
              have hstep₁ := sweep_step_interrupt o st₁ c h₁ hd hres
              have hster : (sweep_step o st₁ c).interrupted = true := by rw [hstep₁]
              have hs₁ : st₂.store = st₁.store := by
                rw [hs, hfold₁, sweep_interrupted o t _ hster, hstep₁]
              have hd₂ : hasDose st₂.store (config_key c) = false := by rw [hs₁]; exact hd
              have hres₂ : (run_simulation c.1 c.2.1 c.2.2.1 c.2.2.2
                  (o (config_key c)) st₂.cwd).result = Except.error PyExc.interrupt := by
                rw [run_result_cwd_indep c.1 c.2.1 c.2.2.1 c.2.2.2 (o (config_key c))
                  st₂.cwd st₁.cwd]
                exact hres
              have hstep₂ := sweep_step_interrupt o st₂ c h₂ hd₂ hres₂
              have hster₂ : (sweep_step o st₂ c).interrupted = true := by rw [hstep₂]
              rw [sweep_interrupted o t _ hster₂, hstep₂]
            · have hstep₁ := sweep_step_err o st₁ c ex h₁ hd hres hexi
              have hs' : st₂.store = (sweep o t (sweep_step o st₁ c)).store := by
                rw [hs, hfold₁]
              by_cases hd₂ : hasDose st₂.store (config_key c) = true
              · rw [sweep_step_skip o st₂ c h₂ hd₂]
                refine ih (sweep_step o st₁ c) { st₂ with completed := st₂.completed + 1 }
                  ?_ h₂ hs'
                rw [hstep₁]
                exact h₁
              · replace hd₂ := (Bool.not_eq_true _).mp hd₂
                have hres₂ : (run_simulation c.1 c.2.1 c.2.2.1 c.2.2.2
                    (o (config_key c)) st₂.cwd).result = Except.error ex := by
                  rw [run_result_cwd_indep c.1 c.2.1 c.2.2.1 c.2.2.2 (o (config_key c))
                    st₂.cwd st₁.cwd]
                  exact hres
                have hstep₂ := sweep_step_err o st₂ c ex h₂ hd₂ hres₂ hexi
                rw [hstep₂]
                refine ih (sweep_step o st₁ c) _ ?_ h₂ hs'
                rw [hstep₁]
                exact h₁

/-- The trace of sweep states always starts with the initial state. -/
lemma sweep_states_head (o : String → RunOracle) (cfgs : List SweepConfig) (st : SweepState) :
    (sweep_states o cfgs st).head? = some st := by
  cases cfgs <;> simp [sweep_states]

/-- C9: starting from any store satisfying the invariant, every state the
sweep passes through has a store in which each present key carries a
non-negative (finite) `dose_rem_per_hr`, and along consecutive states the
store only grows: a key present at one state is still present at the next
(append-only; keys are only overwritten by re-runs, never deleted). -/
theorem C9_store_invariant (oracle : String → RunOracle) (cfgs : List SweepConfig)
    (st : SweepState) (h₀ : storeInv st.store) :
    (∀ s ∈ sweep_states oracle cfgs st, storeInv s.store) ∧
    List.Chain' (fun a b : SweepState => ∀ k, (storeLookup a.store k).isSome = true →
      (storeLookup b.store k).isSome = true) (sweep_states oracle cfgs st) := by
  induction cfgs generalizing st with
  | nil =>
      constructor
      · intro s hs
        simp only [sweep_states, List.scanl_nil, List.mem_singleton] at hs
        subst hs
        exact h₀
      · simp [sweep_states]
  | cons c t ih =>
      obtain ⟨ih1, ih2⟩ := ih (sweep_step oracle st c) (sweep_step_storeInv oracle st c h₀)
      constructor
      · intro s hs
        rw [sweep_states, List.scanl_cons, List.singleton_append] at hs
        rcases List.mem_cons.mp hs with rfl | hs'
        · exact h₀
        · exact ih1 s hs'
      · rw [sweep_states, List.scanl_cons, List.singleton_append]
        rw [List.chain'_cons']
        constructor
        · intro b hb
          rw [show List.scanl (sweep_step oracle) (sweep_step oracle st c) t
              = sweep_states oracle t (sweep_step oracle st c) from rfl,
            sweep_states_head] at hb
          simp only [Option.mem_def, Option.some_inj] at hb
          subst hb
          intro k hk
          exact sweep_step_isSome_mono oracle st c k hk
        · exact ih2

/-- Witness for C9: the empty starting store satisfies the invariant. -/
theorem C9_witness :
    (∀ s ∈ sweep_states (fun _ => ⟨none, [], []⟩) (sweep_configs gamma_energies
      channel_diameters detector_distances detector_angles) (initState [] "w"),
      storeInv s.store) ∧
    List.Chain' (fun a b : SweepState => ∀ k, (storeLookup a.store k).isSome = true →
      (storeLookup b.store k).isSome = true)
      (sweep_states (fun _ => ⟨none, [], []⟩) (sweep_configs gamma_energies
        channel_diameters detector_distances detector_angles) (initState [] "w")) :=
  C9_store_invariant (fun _ => ⟨none, [], []⟩) _ (initState [] "w")
    (fun p hp => absurd hp (List.not_mem_nil p))

/-- C8: a configuration whose key is already in the loaded store with a
`dose_rem_per_hr` is never rerun; rerunning the whole sweep on the store the
first sweep produced reruns no configuration whose key has a dose and leaves
the final store identical. -/
theorem C8_resume_idempotent (oracle : String → RunOracle) (es ds dists angs : List ℚ)
    (s₀ : Store) (cwd cwd' : String) (k : String) (hk : hasDose s₀ k = true) :
    k ∉ (main_sweep oracle es ds dists angs s₀ cwd).runKeys ∧
    (main_sweep oracle es ds dists angs
      (main_sweep oracle es ds dists angs s₀ cwd).store cwd').store
      = (main_sweep oracle es ds dists angs s₀ cwd).store ∧
    (∀ k', hasDose (main_sweep oracle es ds dists angs s₀ cwd).store k' = true →
      k' ∉ (main_sweep oracle es ds dists angs
        (main_sweep oracle es ds dists angs s₀ cwd).store cwd').runKeys) := by
  refine ⟨?_, ?_, ?_⟩
  · exact sweep_no_rerun oracle _ (initState s₀ cwd) k hk (List.not_mem_nil k)
  · exact sweep_idem oracle _ (initState s₀ cwd)
      (initState (main_sweep oracle es ds dists angs s₀ cwd).store cwd') rfl rfl rfl
  · intro k' hk'
    exact sweep_no_rerun oracle _
      (initState (main_sweep oracle es ds dists angs s₀ cwd).store cwd') k' hk'
      (List.not_mem_nil k')

/-- Witness for C8 on a one-point sweep whose key is already stored with a
dose. -/
theorem C8_witness :
    run_key 1 1 30 0 ∉ (main_sweep (fun _ => ⟨none, [], []⟩) [1] [1] [30] [0]
      [(run_key 1 1 30 0, ⟨some 0, none⟩)] "w").runKeys :=
  (C8_resume_idempotent (fun _ => ⟨none, [], []⟩) [1] [1] [30] [0]
    [(run_key 1 1 30 0, ⟨some 0, none⟩)] "w" "w" (run_key 1 1 30 0)
    (by rw [hasDose, storeLookup, if_pos rfl]; rfl)).1
